import Mathlib

/-!
Verification development for the session/conversation state store of
`session_manager.py` (class `SessionManager`): a dual-backend key-value
layer with a Redis remote store and an in-process fallback store.

The embedding is shallow and executable:
* Python dicts become association lists (`List (String × α)`) with
  insertion-order semantics (`lookupL`, `setKey`, `eraseKey`).
* The Redis key space touched by the code is modelled structurally:
  session records, conversation records, per-session conversation lists
  (LPUSH/LRANGE) and the stats hash, all under the fixed key prefix, so
  key construction is injective and left implicit.
* JSON serialize/deserialize round-trips these records exactly (all
  fields are strings, ints or lists thereof), so serialization is
  modelled as the identity.
* A remote call that raises (connection error / timeout) is modelled by
  a per-call boolean `up`; the `except` handlers of the source become
  the `up = false` branch: flip `redis_available` to false and run the
  in-memory fallback.  TTL values are passed through by the code but
  expiry is performed by Redis itself, outside the program, so TTLs are
  not part of the state.
* `datetime.now().isoformat()` timestamps are abstract strings supplied
  per call; the source compares them lexicographically (`created_at <
  cutoff_timestamp`), which the model keeps as `String` `<`.
-/

/-- One chat message as stored by the code (`role`, `content`, `timestamp`). -/
structure Message where
  role : String
  content : String
  timestamp : String
deriving Repr, DecidableEq

/-- A session record, the dict built in `initialize_session`. -/
structure SessionData where
  session_id : String
  start_time : String
  created_at : String
  conversation_count : Nat
  message_count : Nat
  conversations : List String
deriving Repr, DecidableEq

/-- A conversation record, the dict built in `initialize_conversation`. -/
structure ConversationData where
  conversation_id : String
  session_id : String
  start_time : String
  created_at : String
  messages : List Message
  message_count : Nat
deriving Repr, DecidableEq

/-- The global stats counters (`total_sessions`, `total_conversations`,
`total_messages`), kept as Python ints. -/
structure Stats where
  total_sessions : Int
  total_conversations : Int
  total_messages : Int
deriving Repr, DecidableEq

/-- Association-list lookup: Python `d.get(k)` / `d[k]`. -/
def lookupL {α : Type} : List (String × α) → String → Option α
  | [], _ => none
  | p :: rest, k => if p.1 = k then some p.2 else lookupL rest k

/-- Association-list update: Python `d[k] = v` (update in place if the
key is present, else append, preserving insertion order). -/
def setKey {α : Type} : List (String × α) → String → α → List (String × α)
  | [], k, v => [(k, v)]
  | p :: rest, k, v => if p.1 = k then (k, v) :: rest else p :: setKey rest k v

/-- Association-list removal: Python `del d[k]` (also Redis `DEL key`). -/
def eraseKey {α : Type} (l : List (String × α)) (k : String) : List (String × α) :=
  l.filter (fun p => p.1 ≠ k)

/-- The in-process fallback store: `self.sessions`, `self.conversations`,
`self.stats`. -/
structure MemState where
  sessions : List (String × SessionData)
  conversations : List (String × ConversationData)
  stats : Stats
deriving Repr, DecidableEq

/-- The Redis key space the manager touches, split by key shape:
`{prefix}:session:{sid}` (session record), `{prefix}:conversation:{cid}`
(conversation record), `{prefix}:session:{sid}:conversations` (Redis
list, head = most recently LPUSHed), `{prefix}:stats` (hash). -/
structure RedisState where
  sessionRec : List (String × SessionData)
  convRec : List (String × ConversationData)
  convList : List (String × List String)
  statsHash : Stats
deriving Repr, DecidableEq

/-- Whole manager state: the availability flag, whether the connection
pool was constructed (`hasattr(self, 'redis_pool')`), and both stores. -/
structure SMState where
  hasPool : Bool
  redis_available : Bool
  mem : MemState
  redis : RedisState
deriving Repr, DecidableEq

/-- Redis `LPUSH key v`: prepend `v`, creating the list if absent. -/
def lpush (l : List (String × List String)) (k v : String) : List (String × List String) :=
  setKey l k (v :: (lookupL l k).getD [])

/-- The initial system-message list of `initialize_conversation`: one
system message when `system_prompt` is provided and truthy (Python
`if system_prompt:` — the empty string is falsy). -/
def initialMessages (system_prompt : Option String) (now : String) : List Message :=
  match system_prompt with
  | some p => if p = "" then [] else [⟨"system", p, now⟩]
  | none => []

/-- The user/assistant pair appended by `add_message_to_conversation`
(both messages share one timestamp). -/
def messagePair (now message response : String) : List Message :=
  [⟨"user", message, now⟩, ⟨"assistant", response, now⟩]

/-- `_initialize_session_in_memory`. -/
def initialize_session_in_memory (now session_id session_start_time : String)
    (m : MemState) : SessionData × MemState :=
  match lookupL m.sessions session_id with
  | some d => (d, m)
  | none =>
    let d : SessionData :=
      ⟨session_id, session_start_time, now, 0, 0, []⟩
    (d, { m with
            sessions := setKey m.sessions session_id d,
            stats := { m.stats with total_sessions := m.stats.total_sessions + 1 } })

/-- The Redis branch of `initialize_session`: return the existing record
if the key exists, else SET the new record and HINCRBY `total_sessions`. -/
def initialize_session_redis (now session_id session_start_time : String)
    (r : RedisState) : SessionData × RedisState :=
  match lookupL r.sessionRec session_id with
  | some d => (d, r)
  | none =>
    let d : SessionData :=
      ⟨session_id, session_start_time, now, 0, 0, []⟩
    (d, { r with
            sessionRec := setKey r.sessionRec session_id d,
            statsHash := { r.statsHash with
                             total_sessions := r.statsHash.total_sessions + 1 } })

/-- `initialize_session`: dispatch on pool/flag, fall back to the
in-memory path (flipping the flag) when the remote raises (`up = false`). -/
def initialize_session (up : Bool) (now session_id session_start_time : String)
    (st : SMState) : SessionData × SMState :=
  if st.hasPool && st.redis_available then
    if up then
      let (d, r) := initialize_session_redis now session_id session_start_time st.redis
      (d, { st with redis := r })
    else
      let (d, m) := initialize_session_in_memory now session_id session_start_time st.mem
      (d, { st with redis_available := false, mem := m })
  else
    let (d, m) := initialize_session_in_memory now session_id session_start_time st.mem
    (d, { st with mem := m })

/-- `_initialize_conversation_in_memory`. -/
def initialize_conversation_in_memory (now conversation_id conversation_start_time
    session_id : String) (system_prompt : Option String)
    (m : MemState) : ConversationData × MemState :=
  match lookupL m.conversations conversation_id with
  | some d => (d, m)
  | none =>
    let msgs := initialMessages system_prompt now
    let d : ConversationData :=
      ⟨conversation_id, session_id, conversation_start_time, now, msgs, msgs.length⟩
    let m1 := { m with conversations := setKey m.conversations conversation_id d }
    let m2 :=
      match lookupL m1.sessions session_id with
      | some s =>
        let s1 := { s with conversation_count := s.conversation_count + 1,
                           conversations := s.conversations ++ [conversation_id] }
        { m1 with sessions := setKey m1.sessions session_id s1 }
      | none => m1
    (d, { m2 with stats := { m2.stats with
            total_conversations := m2.stats.total_conversations + 1 } })

/-- The Redis branch of `initialize_conversation`: on create it SETs the
conversation record, LPUSHes the id onto the session's conversation
list unconditionally, updates the session record only if the session
key exists, and HINCRBYs `total_conversations`. -/
def initialize_conversation_redis (now conversation_id conversation_start_time
    session_id : String) (system_prompt : Option String)
    (r : RedisState) : ConversationData × RedisState :=
  match lookupL r.convRec conversation_id with
  | some d => (d, r)
  | none =>
    let msgs := initialMessages system_prompt now
    let d : ConversationData :=
      ⟨conversation_id, session_id, conversation_start_time, now, msgs, msgs.length⟩
    let r1 := { r with
                  convRec := setKey r.convRec conversation_id d,
                  convList := lpush r.convList session_id conversation_id }
    let r2 :=
      match lookupL r1.sessionRec session_id with
      | some s =>
        let s1 := { s with conversation_count := s.conversation_count + 1,
                           conversations := s.conversations ++ [conversation_id] }
        { r1 with sessionRec := setKey r1.sessionRec session_id s1 }
      | none => r1
    (d, { r2 with statsHash := { r2.statsHash with
            total_conversations := r2.statsHash.total_conversations + 1 } })

/-- `initialize_conversation` dispatch. -/
def initialize_conversation (up : Bool) (now conversation_id conversation_start_time
    session_id : String) (system_prompt : Option String)
    (st : SMState) : ConversationData × SMState :=
  if st.hasPool && st.redis_available then
    if up then
      let (d, r) := initialize_conversation_redis now conversation_id
        conversation_start_time session_id system_prompt st.redis
      (d, { st with redis := r })
    else
      let (d, m) := initialize_conversation_in_memory now conversation_id
        conversation_start_time session_id system_prompt st.mem
      (d, { st with redis_available := false, mem := m })
  else
    let (d, m) := initialize_conversation_in_memory now conversation_id
      conversation_start_time session_id system_prompt st.mem
    (d, { st with mem := m })

/-- `_add_message_to_conversation_in_memory`: auto-create the
conversation when absent (warning logged), then append the user and
assistant messages, bump the conversation count, the session count when
the session exists, and `total_messages`. -/
def add_message_to_conversation_in_memory (now conversation_id message response
    session_id : String) (m : MemState) : MemState :=
  let m0 :=
    match lookupL m.conversations conversation_id with
    | none => (initialize_conversation_in_memory now conversation_id now
                 session_id none m).2
    | some _ => m
  let m1 :=
    match lookupL m0.conversations conversation_id with
    | some d =>
      let d1 := { d with
          messages := d.messages ++ messagePair now message response,
          message_count := d.message_count + 2 }
      { m0 with conversations := setKey m0.conversations conversation_id d1 }
    | none => m0
  let m2 :=
    match lookupL m1.sessions session_id with
    | some s =>
      let s1 := { s with message_count := s.message_count + 2 }
      { m1 with sessions := setKey m1.sessions session_id s1 }
    | none => m1
  { m2 with stats := { m2.stats with
      total_messages := m2.stats.total_messages + 2 } }

/-- The Redis branch of `add_message_to_conversation`: `none` models the
`if not conversation_data:` early return (the wrapper then logs a
warning and delegates to the in-memory fallback without touching Redis
or the availability flag). -/
def add_message_to_conversation_redis (now conversation_id message response
    session_id : String) (r : RedisState) : Option RedisState :=
  match lookupL r.convRec conversation_id with
  | none => none
  | some d =>
    let d1 := { d with
        messages := d.messages ++ messagePair now message response,
        message_count := d.message_count + 2 }
    let r1 := { r with convRec := setKey r.convRec conversation_id d1 }
    let r2 :=
      match lookupL r1.sessionRec session_id with
      | some s =>
        let s1 := { s with message_count := s.message_count + 2 }
        { r1 with sessionRec := setKey r1.sessionRec session_id s1 }
      | none => r1
    some { r2 with statsHash := { r2.statsHash with
            total_messages := r2.statsHash.total_messages + 2 } }

/-- `add_message_to_conversation` dispatch. -/
def add_message_to_conversation (up : Bool) (now conversation_id message response
    session_id : String) (st : SMState) : SMState :=
  let fallback :=
    add_message_to_conversation_in_memory now conversation_id message response
      session_id st.mem
  if st.hasPool && st.redis_available then
    if up then
      match add_message_to_conversation_redis now conversation_id message response
          session_id st.redis with
      | some r => { st with redis := r }
      | none => { st with mem := fallback }
    else
      { st with redis_available := false, mem := fallback }
  else
    { st with mem := fallback }

/-- `get_session`: a pure read of the active backend; on a remote
exception the flag flips and the in-memory value is returned. -/
def get_session (up : Bool) (session_id : String)
    (st : SMState) : Option SessionData × SMState :=
  if st.hasPool && st.redis_available then
    if up then (lookupL st.redis.sessionRec session_id, st)
    else (lookupL st.mem.sessions session_id, { st with redis_available := false })
  else (lookupL st.mem.sessions session_id, st)

/-- `get_conversation`, same shape as `get_session`. -/
def get_conversation (up : Bool) (conversation_id : String)
    (st : SMState) : Option ConversationData × SMState :=
  if st.hasPool && st.redis_available then
    if up then (lookupL st.redis.convRec conversation_id, st)
    else (lookupL st.mem.conversations conversation_id, { st with redis_available := false })
  else (lookupL st.mem.conversations conversation_id, st)

/-- Python list slice `xs[-limit:]` for an int `limit`: the last
`limit` elements when `limit > 0` (all of them when `limit ≥ len`), the
WHOLE list when `limit = 0` (`-0 == 0`, so the slice is `xs[0:]`), and
`xs[(-limit):]` i.e. drop from the front when `limit < 0`. -/
def pySliceLast (xs : List Message) (limit : Int) : List Message :=
  if 0 < limit then xs.drop (xs.length - limit.toNat)
  else if limit = 0 then xs
  else xs.drop (-limit).toNat

/-- `get_conversation_messages`: `conversation_data['messages'][-limit:]`
when the conversation is found, else `[]`. -/
def get_conversation_messages (up : Bool) (conversation_id : String) (limit : Int)
    (st : SMState) : List Message × SMState :=
  let r := get_conversation up conversation_id st
  (match r.1 with
   | some d => pySliceLast d.messages limit
   | none => [], r.2)

/-- `get_session_conversations`: `LRANGE list 0 -1` on the remote path
(missing key reads as the empty list), `session['conversations']` (or
`[]` when the session is absent) on the in-memory path. -/
def get_session_conversations (up : Bool) (session_id : String)
    (st : SMState) : List String × SMState :=
  let memList :=
    match lookupL st.mem.sessions session_id with
    | some s => s.conversations
    | none => []
  if st.hasPool && st.redis_available then
    if up then ((lookupL st.redis.convList session_id).getD [], st)
    else (memList, { st with redis_available := false })
  else (memList, st)

/-- `get_session_stats`: HGETALL of the stats hash (missing fields read
as 0, built into `Stats`) or the in-memory `self.stats`. -/
def get_session_stats (up : Bool) (st : SMState) : Stats × SMState :=
  if st.hasPool && st.redis_available then
    if up then (st.redis.statsHash, st)
    else (st.mem.stats, { st with redis_available := false })
  else (st.mem.stats, st)

/-- Lexicographic `<` on code-point lists, the order Python uses to
compare strings (`created_at < cutoff_timestamp` on ISO timestamps). -/
def charListLt : List Char → List Char → Bool
  | [], [] => false
  | [], _ :: _ => true
  | _ :: _, [] => false
  | a :: as, b :: bs => if a.val < b.val then true
      else if a = b then charListLt as bs else false

/-- Python string `<`. -/
def pyStrLt (a b : String) : Bool :=
  charListLt a.data b.data

/-- `_cleanup_old_sessions_in_memory`.  The Python computes
`cutoff_timestamp = (now - timedelta(hours=max_age_hours)).isoformat()`
and compares ISO strings lexicographically; the model takes the cutoff
string as the argument.  One pass collects the old session ids and
their linked conversation ids, then both are deleted and the counters
are decremented by the two list lengths. -/
def cleanup_old_sessions_in_memory (cutoff_timestamp : String)
    (m : MemState) : Int × MemState :=
  let old := m.sessions.filter (fun p => pyStrLt p.2.created_at cutoff_timestamp)
  let sessions_to_remove := old.map (fun p => p.1)
  let conversations_to_remove := old.flatMap (fun p => p.2.conversations)
  ((sessions_to_remove.length : Int),
   { sessions := sessions_to_remove.foldl eraseKey m.sessions,
     conversations := conversations_to_remove.foldl eraseKey m.conversations,
     stats := { m.stats with
       total_sessions := m.stats.total_sessions - sessions_to_remove.length,
       total_conversations :=
         m.stats.total_conversations - conversations_to_remove.length } })

/-- Whether the Redis key `{prefix}:session:{sid}` ends with
`:conversations` — the SCAN loop of `cleanup_old_sessions` skips such
keys (`if not key.endswith(':conversations')`).  Since the key is the
prefix followed by `:session:` followed by `sid`, this holds exactly
when `":" ++ sid` ends with `":conversations"`. -/
def isConversationListKey (sid : String) : Bool :=
  (":conversations").data.isSuffixOf ((":" ++ sid).data)

/-- One iteration of the Redis `cleanup_old_sessions` SCAN loop: skip
conversation-list keys; if the record's `created_at` is lexicographically
below the cutoff and its `session_id` field is truthy, DEL the session
key, the conversation-list key and every linked conversation key, and
count it.  The stats hash is never touched. -/
def cleanupRedisStep (cutoff_timestamp : String) (acc : Int × RedisState)
    (p : String × SessionData) : Int × RedisState :=
  if isConversationListKey p.1 then acc
  else if pyStrLt p.2.created_at cutoff_timestamp && !(p.2.session_id == "") then
    (acc.1 + 1,
     { sessionRec := eraseKey acc.2.sessionRec p.1,
       convRec := p.2.conversations.foldl eraseKey acc.2.convRec,
       convList := eraseKey acc.2.convList p.2.session_id,
       statsHash := acc.2.statsHash })
  else acc

/-- The Redis branch of `cleanup_old_sessions`: fold the step over the
session records present when the scan starts. -/
def cleanup_old_sessions_redis (cutoff_timestamp : String)
    (r : RedisState) : Int × RedisState :=
  r.sessionRec.foldl (cleanupRedisStep cutoff_timestamp) (0, r)

/-- `cleanup_old_sessions` dispatch. -/
def cleanup_old_sessions (up : Bool) (cutoff_timestamp : String)
    (st : SMState) : Int × SMState :=
  if st.hasPool && st.redis_available then
    if up then
      let (n, r) := cleanup_old_sessions_redis cutoff_timestamp st.redis
      (n, { st with redis := r })
    else
      let (n, m) := cleanup_old_sessions_in_memory cutoff_timestamp st.mem
      (n, { st with redis_available := false, mem := m })
  else
    let (n, m) := cleanup_old_sessions_in_memory cutoff_timestamp st.mem
    (n, { st with mem := m })

/-- `health_check`: when a pool exists it performs a set/get/delete
round trip on a throwaway key (outside the modelled entity key space)
and sets `redis_available` to the outcome; with no pool the flag is
untouched.  This is the only operation that ever sets the flag to true. -/
def health_check (up : Bool) (st : SMState) : SMState :=
  if st.hasPool then { st with redis_available := up } else st

/-- The entity operations of the manager (everything except
`health_check` and construction). -/
inductive Op where
  | initSession (session_id start_time : String)
  | initConv (conversation_id start_time session_id : String)
      (system_prompt : Option String)
  | addMsg (conversation_id message response session_id : String)
  | getSess (session_id : String)
  | getConv (conversation_id : String)
  | getConvMsgs (conversation_id : String) (limit : Int)
  | getSessConvs (session_id : String)
  | getStats
  | cleanup (cutoff_timestamp : String)
deriving Repr, DecidableEq

/-- One call: which operation, whether every remote round trip inside it
succeeds (`up`), and the wall-clock timestamp `datetime.now()` reads. -/
structure Call where
  up : Bool
  now : String
  op : Op
deriving Repr, DecidableEq

/-- State transition of one entity call (results discarded). -/
def step (c : Call) (st : SMState) : SMState :=
  match c.op with
  | .initSession sid t => (initialize_session c.up c.now sid t st).2
  | .initConv cid t sid sys => (initialize_conversation c.up c.now cid t sid sys st).2
  | .addMsg cid msg resp sid => add_message_to_conversation c.up c.now cid msg resp sid st
  | .getSess sid => (get_session c.up sid st).2
  | .getConv cid => (get_conversation c.up cid st).2
  | .getConvMsgs cid limit => (get_conversation_messages c.up cid limit st).2
  | .getSessConvs sid => (get_session_conversations c.up sid st).2
  | .getStats => (get_session_stats c.up st).2
  | .cleanup cutoff => (cleanup_old_sessions c.up cutoff st).2

/-- Run a sequence of entity calls. -/
def run (cs : List Call) (st : SMState) : SMState :=
  cs.foldl (fun s c => step c s) st

/-- What the same entity call does to the in-memory store when the
manager is on the fallback path. -/
def memStep (c : Call) (m : MemState) : MemState :=
  match c.op with
  | .initSession sid t => (initialize_session_in_memory c.now sid t m).2
  | .initConv cid t sid sys =>
      (initialize_conversation_in_memory c.now cid t sid sys m).2
  | .addMsg cid msg resp sid =>
      add_message_to_conversation_in_memory c.now cid msg resp sid m
  | .cleanup cutoff => (cleanup_old_sessions_in_memory cutoff m).2
  | _ => m

/-- State of a manager constructed with empty backends: the flag is the
outcome of the construction-time probe (`_test_connection`), and a pool
exists unless the constructor itself failed. -/
def startState (pool flag : Bool) : SMState :=
  ⟨pool, flag, ⟨[], [], ⟨0, 0, 0⟩⟩, ⟨[], [], [], ⟨0, 0, 0⟩⟩⟩


theorem lookupL_setKey_self {α : Type} (l : List (String × α)) (k : String) (v : α) :
    lookupL (setKey l k v) k = some v := by
  induction l with
  | nil => simp [setKey, lookupL]
  | cons p rest ih =>
    by_cases h : p.1 = k
    · simp [setKey, h, lookupL]
    · simp [setKey, h, lookupL, ih]

theorem lookupL_setKey_ne {α : Type} (l : List (String × α)) (k k' : String) (v : α)
    (h : k' ≠ k) : lookupL (setKey l k v) k' = lookupL l k' := by
  have hik : k ≠ k' := Ne.symm h
  induction l with
  | nil => simp [setKey, lookupL, hik]
  | cons p rest ih =>
    by_cases hp : p.1 = k
    · have hpk : p.1 ≠ k' := by rw [hp]; exact hik
      simp [setKey, hp, lookupL, hpk, hik]
    · by_cases hp' : p.1 = k'
      · simp [setKey, hp, lookupL, hp', h, hik]
      · simp [setKey, hp, lookupL, hp', ih]

theorem mem_of_lookupL {α : Type} (l : List (String × α)) (k : String) (v : α)
    (h : lookupL l k = some v) : (k, v) ∈ l := by
  induction l with
  | nil => simp [lookupL] at h
  | cons p rest ih =>
    by_cases hp : p.1 = k
    · simp only [lookupL, hp, if_true, Option.some.injEq] at h
      subst h
      have : (k, p.2) = p := by
        rw [← hp]
      rw [this]
      exact List.mem_cons_self p rest
    · simp only [lookupL, hp, if_false] at h
      exact List.mem_cons_of_mem _ (ih h)

theorem lookupL_eraseKey_self {α : Type} (l : List (String × α)) (k : String) :
    lookupL (eraseKey l k) k = none := by
  induction l with
  | nil => simp [eraseKey, lookupL]
  | cons p rest ih =>
    by_cases hp : p.1 = k
    · simpa [eraseKey, List.filter_cons, hp] using ih
    · simpa [eraseKey, List.filter_cons, hp, lookupL] using ih

theorem lookupL_eraseKey_ne {α : Type} (l : List (String × α)) (k k' : String)
    (h : k' ≠ k) : lookupL (eraseKey l k) k' = lookupL l k' := by
  induction l with
  | nil => simp [eraseKey, lookupL]
  | cons p rest ih =>
    have hik : k ≠ k' := Ne.symm h
    by_cases hp : p.1 = k
    · have hpk : p.1 ≠ k' := by rw [hp]; exact hik
      simpa [eraseKey, List.filter_cons, hp, lookupL, hpk, hik] using ih
    · by_cases hp' : p.1 = k'
      · simp [eraseKey, List.filter_cons, hp, lookupL, hp', h, hik]
      · simpa [eraseKey, List.filter_cons, hp, lookupL, hp'] using ih

theorem lookupL_foldl_eraseKey {α : Type} (ks : List String)
    (l : List (String × α)) (k : String) :
    lookupL (ks.foldl eraseKey l) k = if k ∈ ks then none else lookupL l k := by
  induction ks generalizing l with
  | nil => simp
  | cons k0 ks ih =>
    rw [List.foldl_cons, ih]
    by_cases hk : k = k0
    · subst hk
      by_cases hks : k ∈ ks
      · simp [hks]
      · simp [hks, lookupL_eraseKey_self]
    · by_cases hks : k ∈ ks
      · simp [hks, List.mem_cons, hk]
      · simp [hks, List.mem_cons, hk, lookupL_eraseKey_ne _ _ _ hk]

theorem foldl_eraseKey_eq_filter {α : Type} (ks : List String)
    (l : List (String × α)) :
    ks.foldl eraseKey l = l.filter (fun p => !(ks.contains p.1)) := by
  induction ks generalizing l with
  | nil => simp
  | cons k0 ks ih =>
    rw [List.foldl_cons, ih]
    unfold eraseKey
    rw [List.filter_filter]
    apply List.filter_congr
    intro p _
    by_cases h : p.1 = k0
    · simp [h]
    · simp [h]

/-- C7: once the shared availability flag is false, every entity
operation runs against the local fallback store (the state changes only
in its `mem` component, by the in-memory transition) and leaves the
flag false; no entity operation ever turns the flag from false to true;
the flag becomes true only through a successful `health_check` probe. -/
theorem C7_fallback_is_sticky :
    (∀ (c : Call) (st : SMState), st.redis_available = false →
        step c st = { st with mem := memStep c st.mem }) ∧
    (∀ (c : Call) (st : SMState),
        (step c st).redis_available = true → st.redis_available = true) ∧
    (∀ (u : Bool) (st : SMState), st.hasPool = true →
        (health_check u st).redis_available = u) := by
  have h1 : ∀ (c : Call) (st : SMState), st.redis_available = false →
      step c st = { st with mem := memStep c st.mem } := by
    intro c st h
    obtain ⟨up, now, op⟩ := c
    obtain ⟨hp, flag, mem, redis⟩ := st
    simp only at h
    subst h
    cases op <;>
      simp [step, memStep, initialize_session, initialize_conversation,
        add_message_to_conversation, get_session, get_conversation,
        get_conversation_messages, get_session_conversations,
        get_session_stats, cleanup_old_sessions]
  refine ⟨h1, ?_, ?_⟩
  · intro c st h
    by_contra hfalse
    have hf : st.redis_available = false := by
      cases hst : st.redis_available
      · rfl
      · exact absurd hst hfalse
    rw [h1 c st hf] at h
    simp at h
    exact absurd (hf.symm.trans h) (by simp)
  · intro u st h
    simp [health_check, h]

/-- Witness for C7 at concrete inputs. -/
theorem C7_fallback_is_sticky_witness :
    step ⟨true, "T", .getStats⟩ (startState true false) =
      { startState true false with
          mem := memStep ⟨true, "T", .getStats⟩ (startState true false).mem } ∧
    (startState true true).redis_available = true ∧
    (health_check true (startState true false)).redis_available = true :=
  ⟨C7_fallback_is_sticky.1 ⟨true, "T", .getStats⟩ (startState true false) (by decide),
   C7_fallback_is_sticky.2.1 ⟨true, "T", .getStats⟩ (startState true true) (by decide),
   C7_fallback_is_sticky.2.2 true (startState true false) (by decide)⟩

/-- C2: `initialize_session` is an idempotent get-or-create on both
backend paths.  When the session id is fresh, a second call (with any
timestamps) returns exactly the first call's record and leaves the
state of the first call unchanged, and `total_sessions` is incremented
exactly once across the two calls. -/
theorem C2_initialize_session_idempotent :
    (∀ (up1 up2 : Bool) (now1 now2 sid t : String) (st : SMState),
      (st.hasPool && st.redis_available) = false →
      lookupL st.mem.sessions sid = none →
      initialize_session up2 now2 sid t (initialize_session up1 now1 sid t st).2 =
        ((initialize_session up1 now1 sid t st).1,
         (initialize_session up1 now1 sid t st).2) ∧
      (initialize_session up1 now1 sid t st).2.mem.stats.total_sessions =
        st.mem.stats.total_sessions + 1) ∧
    (∀ (now1 now2 sid t : String) (st : SMState),
      (st.hasPool && st.redis_available) = true →
      lookupL st.redis.sessionRec sid = none →
      initialize_session true now2 sid t (initialize_session true now1 sid t st).2 =
        ((initialize_session true now1 sid t st).1,
         (initialize_session true now1 sid t st).2) ∧
      (initialize_session true now1 sid t st).2.redis.statsHash.total_sessions =
        st.redis.statsHash.total_sessions + 1) := by
  constructor
  · intro up1 up2 now1 now2 sid t st hoff hfresh
    simp only [initialize_session, hoff, Bool.false_eq_true, if_false,
      initialize_session_in_memory, hfresh]
    constructor
    · simp [lookupL_setKey_self]
    · trivial
  · intro now1 now2 sid t st hon hfresh
    simp only [initialize_session, hon, if_true,
      initialize_session_redis, hfresh]
    constructor
    · simp [hon, lookupL_setKey_self, initialize_session_redis]
    · trivial

/-- Witness for C2 at concrete inputs. -/
theorem C2_initialize_session_idempotent_witness :
    (initialize_session false "T2" "s" "t0"
        (initialize_session false "T1" "s" "t0" (startState true false)).2 =
      ((initialize_session false "T1" "s" "t0" (startState true false)).1,
       (initialize_session false "T1" "s" "t0" (startState true false)).2) ∧
     (initialize_session false "T1" "s" "t0"
        (startState true false)).2.mem.stats.total_sessions =
       (startState true false).mem.stats.total_sessions + 1) ∧
    (initialize_session true "T2" "s" "t0"
        (initialize_session true "T1" "s" "t0" (startState true true)).2 =
      ((initialize_session true "T1" "s" "t0" (startState true true)).1,
       (initialize_session true "T1" "s" "t0" (startState true true)).2) ∧
     (initialize_session true "T1" "s" "t0"
        (startState true true)).2.redis.statsHash.total_sessions =
       (startState true true).redis.statsHash.total_sessions + 1) :=
  ⟨C2_initialize_session_idempotent.1 false false "T1" "T2" "s" "t0"
      (startState true false) (by decide) (by decide),
   C2_initialize_session_idempotent.2 "T1" "T2" "s" "t0"
      (startState true true) (by decide) (by decide)⟩

/-- The conversation record produced by creating conversation `c` with
no seed message and then appending one user/assistant pair (used for
C4): it stores exactly 2 messages and `message_count = 2`. -/
def convC4 : ConversationData :=
  ⟨"c", "s", "t1", "T1", [⟨"user", "a", "T2"⟩, ⟨"assistant", "b", "T2"⟩], 2⟩

/-- A reachable fallback state for C4, built by running the operations
themselves: `initialize_conversation` (no system prompt) followed by
one `add_message_to_conversation`. -/
def stC4 : SMState :=
  add_message_to_conversation false "T2" "c" "a" "b" "s"
    (initialize_conversation false "T1" "c" "t1" "s" none (startState true false)).2

/-- C4 counterexample, at conversation id `c` and limit `k = 0`: the
stored record has `message_count = 2`, so the claim's formula demands
the last `min(0, 2) = 0` messages — the empty list (computed below as
`messages.drop (len - min 0 messageCount) = messages.drop 2 = []`).
The code instead evaluates the Python slice `messages[-0:]`, which is
`messages[0:]`, and returns all 2 stored messages, a nonempty list
different from what the claim requires. -/
theorem C4_counterexample :
    (get_conversation false "c" stC4).1 = some convC4 ∧
    convC4.message_count = 2 ∧
    min (0 : Int).toNat convC4.message_count = 0 ∧
    convC4.messages.drop
      (convC4.messages.length - min (0 : Int).toNat convC4.message_count) = [] ∧
    (get_conversation_messages false "c" 0 stC4).1 = convC4.messages ∧
    (get_conversation_messages false "c" 0 stC4).1 ≠
      convC4.messages.drop
        (convC4.messages.length - min (0 : Int).toNat convC4.message_count) := by
  decide

/-- C4 amended: for `limit ≥ 1`, `get_conversation_messages` returns
exactly the last `min(limit, messageCount)` stored messages in their
original order — the result is the length-`min(limit, messageCount)`
suffix of the stored message list — and the empty list when the
conversation is absent; at `limit = 0`, however, it returns the WHOLE
message list, not the empty list the `min` formula would give. -/
theorem C4_amended_get_conversation_messages :
    (∀ (up : Bool) (cid : String) (k : Int) (st : SMState) (d : ConversationData),
      (get_conversation up cid st).1 = some d →
      d.message_count = d.messages.length →
      (1 ≤ k →
        (get_conversation_messages up cid k st).1 =
          d.messages.drop (d.messages.length - min k.toNat d.message_count) ∧
        (get_conversation_messages up cid k st).1.length =
          min k.toNat d.message_count ∧
        d.messages =
          d.messages.take (d.messages.length - min k.toNat d.message_count) ++
            (get_conversation_messages up cid k st).1) ∧
      (k = 0 → (get_conversation_messages up cid k st).1 = d.messages)) ∧
    (∀ (up : Bool) (cid : String) (k : Int) (st : SMState),
      (get_conversation up cid st).1 = none →
      (get_conversation_messages up cid k st).1 = []) := by
  constructor
  · intro up cid k st d h hwf
    constructor
    · intro h1
      have hk : (0 : Int) < k := lt_of_lt_of_le Int.zero_lt_one h1
      have hmin : d.messages.length - k.toNat =
          d.messages.length - min k.toNat d.message_count := by
        rw [hwf]
        omega
      have hdrop : (get_conversation_messages up cid k st).1 =
          d.messages.drop (d.messages.length - min k.toNat d.message_count) := by
        simp only [get_conversation_messages, h, pySliceLast, hk, if_true]
        rw [hmin]
      refine ⟨hdrop, ?_, ?_⟩
      · rw [hdrop, List.length_drop, hwf]
        omega
      · rw [hdrop]
        exact (List.take_append_drop _ _).symm
    · intro h0
      subst h0
      simp [get_conversation_messages, h, pySliceLast]
  · intro up cid k st h
    simp [get_conversation_messages, h]

/-- Witness for C4 at concrete inputs (`limit = 1` on the stored
2-message conversation, and an absent id). -/
theorem C4_amended_witness :
    ((get_conversation_messages false "c" 1 stC4).1 =
        convC4.messages.drop (convC4.messages.length -
          min (1 : Int).toNat convC4.message_count) ∧
      (get_conversation_messages false "c" 1 stC4).1.length =
        min (1 : Int).toNat convC4.message_count ∧
      convC4.messages =
        convC4.messages.take (convC4.messages.length -
          min (1 : Int).toNat convC4.message_count) ++
          (get_conversation_messages false "c" 1 stC4).1) ∧
    (get_conversation_messages false "missing" 1 stC4).1 = [] :=
  ⟨(C4_amended_get_conversation_messages.1 false "c" 1 stC4 convC4
      (by decide) (by decide)).1 (by decide),
   C4_amended_get_conversation_messages.2 false "missing" 1 stC4 (by decide)⟩

/-- Remote-active state after creating a conversation for a
never-initialized session id, used for C5. -/
def stC5 : SMState :=
  (initialize_conversation true "T1" "c" "t1" "sx" none (startState true true)).2

/-- C5 counterexample: on the remote path the conversation id is
LPUSHed onto the session's conversation-list key before the
session-exists check, so `get_session_conversations` for the
never-initialized session DOES contain the orphan id, contradicting the
claim's "does not contain c on either backend path". -/
theorem C5_counterexample :
    (get_session true "sx" stC5).1 = none ∧
    "c" ∈ (get_session_conversations true "sx" stC5).1 := by
  constructor
  · rfl
  · decide

/-- C5 amended: with a never-initialized session id and a fresh
conversation id, `initialize_conversation` succeeds on both backend
paths: it increments `total_conversations`, the conversation is
retrievable via `get_conversation`, and the session record stays
absent.  On the fallback path `get_session_conversations` of that
session is empty, but on the remote path the unconditional LPUSH makes
`get_session_conversations` return the orphan id at the head of the
session's list key. -/
theorem C5_amended_orphan_conversation :
    (∀ (up up' : Bool) (now cid t sid : String) (sys : Option String) (st : SMState),
      (st.hasPool && st.redis_available) = false →
      lookupL st.mem.conversations cid = none →
      lookupL st.mem.sessions sid = none →
      (initialize_conversation up now cid t sid sys st).2.mem.stats.total_conversations =
        st.mem.stats.total_conversations + 1 ∧
      (get_conversation up' cid (initialize_conversation up now cid t sid sys st).2).1 =
        some (initialize_conversation up now cid t sid sys st).1 ∧
      (get_session up' sid (initialize_conversation up now cid t sid sys st).2).1 = none ∧
      (get_session_conversations up' sid
        (initialize_conversation up now cid t sid sys st).2).1 = []) ∧
    (∀ (now cid t sid : String) (sys : Option String) (st : SMState),
      (st.hasPool && st.redis_available) = true →
      lookupL st.redis.convRec cid = none →
      lookupL st.redis.sessionRec sid = none →
      (initialize_conversation true now cid t sid sys st).2.redis.statsHash.total_conversations =
        st.redis.statsHash.total_conversations + 1 ∧
      (get_conversation true cid (initialize_conversation true now cid t sid sys st).2).1 =
        some (initialize_conversation true now cid t sid sys st).1 ∧
      (get_session true sid (initialize_conversation true now cid t sid sys st).2).1 = none ∧
      (get_session_conversations true sid
        (initialize_conversation true now cid t sid sys st).2).1 =
        cid :: (lookupL st.redis.convList sid).getD []) := by
  constructor
  · intro up up' now cid t sid sys st hoff hc hs
    simp only [initialize_conversation, hoff, Bool.false_eq_true, if_false,
      initialize_conversation_in_memory, hc, hs]
    refine ⟨trivial, ?_, ?_, ?_⟩
    · simp [get_conversation, hoff, lookupL_setKey_self]
    · simp [get_session, hoff, hs]
    · simp [get_session_conversations, hoff, hs]
  · intro now cid t sid sys st hon hc hs
    simp only [initialize_conversation, hon, if_true,
      initialize_conversation_redis, hc, hs]
    refine ⟨trivial, ?_, ?_, ?_⟩
    · simp [get_conversation, hon, lookupL_setKey_self, initialize_conversation_redis]
    · simp [get_session, hon, hs]
    · simp [get_session_conversations, hon, lpush, lookupL_setKey_self]

/-- Witness for C5 at concrete inputs, on both backend paths. -/
theorem C5_amended_witness :
    ((initialize_conversation false "T1" "c" "t1" "sx" none
        (startState true false)).2.mem.stats.total_conversations =
        (startState true false).mem.stats.total_conversations + 1 ∧
      (get_conversation false "c" (initialize_conversation false "T1" "c" "t1" "sx" none
        (startState true false)).2).1 =
        some (initialize_conversation false "T1" "c" "t1" "sx" none
          (startState true false)).1 ∧
      (get_session false "sx" (initialize_conversation false "T1" "c" "t1" "sx" none
        (startState true false)).2).1 = none ∧
      (get_session_conversations false "sx" (initialize_conversation false "T1" "c" "t1" "sx"
        none (startState true false)).2).1 = []) ∧
    ((initialize_conversation true "T1" "c" "t1" "sx" none
        (startState true true)).2.redis.statsHash.total_conversations =
        (startState true true).redis.statsHash.total_conversations + 1 ∧
      (get_conversation true "c" (initialize_conversation true "T1" "c" "t1" "sx" none
        (startState true true)).2).1 =
        some (initialize_conversation true "T1" "c" "t1" "sx" none
          (startState true true)).1 ∧
      (get_session true "sx" (initialize_conversation true "T1" "c" "t1" "sx" none
        (startState true true)).2).1 = none ∧
      (get_session_conversations true "sx" (initialize_conversation true "T1" "c" "t1" "sx"
        none (startState true true)).2).1 =
        "c" :: (lookupL (startState true true).redis.convList "sx").getD []) :=
  ⟨C5_amended_orphan_conversation.1 false false "T1" "c" "t1" "sx" none
      (startState true false) (by decide) (by decide) (by decide),
   C5_amended_orphan_conversation.2 "T1" "c" "t1" "sx" none
      (startState true true) (by decide) (by decide) (by decide)⟩

/-- The conversation-id sequence the remote path serves for a session:
`LRANGE {prefix}:session:{sid}:conversations 0 -1`. -/
def redisConversations (r : RedisState) (sid : String) : List String :=
  (lookupL r.convList sid).getD []

/-- The conversation-id sequence the fallback path serves for a
session: the session record's `conversations` list, `[]` if absent. -/
def memConversations (m : MemState) (sid : String) : List String :=
  match lookupL m.sessions sid with
  | some s => s.conversations
  | none => []

theorem initialize_conversation_redis_convList (now cid t sid : String)
    (sys : Option String) (r : RedisState)
    (hc : lookupL r.convRec cid = none) :
    (initialize_conversation_redis now cid t sid sys r).2.convList =
      lpush r.convList sid cid := by
  cases h : lookupL r.sessionRec sid <;>
    simp [initialize_conversation_redis, hc, h]

theorem initialize_conversation_in_memory_links (now cid t sid : String)
    (sys : Option String) (m : MemState) (s : SessionData)
    (hc : lookupL m.conversations cid = none)
    (hs : lookupL m.sessions sid = some s) :
    lookupL (initialize_conversation_in_memory now cid t sid sys m).2.sessions sid =
      some { s with conversation_count := s.conversation_count + 1,
                    conversations := s.conversations ++ [cid] } := by
  simp [initialize_conversation_in_memory, hc, hs, lookupL_setKey_self]

/-- Remote-active state: session `s` then conversations `c1`, `c2`
created in that order, used for C10. -/
def stC10r : SMState :=
  (initialize_conversation true "T3" "c2" "t2" "s" none
    (initialize_conversation true "T2" "c1" "t1" "s" none
      (initialize_session true "T1" "s" "t0" (startState true true)).2).2).2

/-- Fallback state after the same call sequence, used for C10. -/
def stC10m : SMState :=
  (initialize_conversation false "T3" "c2" "t2" "s" none
    (initialize_conversation false "T2" "c1" "t1" "s" none
      (initialize_session false "T1" "s" "t0" (startState true false)).2).2).2

/-- C10 counterexample: after the same two `initialize_conversation`
calls, the remote path (LPUSH + LRANGE) returns `["c2", "c1"]` while
the fallback path returns the append order `["c1", "c2"]`: the two
backend implementations are NOT order-equivalent. -/
theorem C10_counterexample :
    (get_session_conversations true "s" stC10r).1 = ["c2", "c1"] ∧
    (get_session_conversations false "s" stC10m).1 = ["c1", "c2"] ∧
    (get_session_conversations true "s" stC10r).1 ≠
      (get_session_conversations false "s" stC10m).1 := by
  refine ⟨rfl, rfl, ?_⟩
  decide

/-- C10 amended: the remote path serves the session's list key and the
fallback path serves the session record's appended list; after the same
conversation creations the remote sequence is the REVERSE of the
fallback sequence (LPUSH prepends each new id, the record appends it),
i.e. newest-first instead of creation order. -/
theorem C10_amended_reverse_order :
    (∀ (sid : String) (st : SMState), (st.hasPool && st.redis_available) = true →
      (get_session_conversations true sid st).1 = redisConversations st.redis sid) ∧
    (∀ (up : Bool) (sid : String) (st : SMState),
      (st.hasPool && st.redis_available) = false →
      (get_session_conversations up sid st).1 = memConversations st.mem sid) ∧
    (∀ (now cid t sid : String) (sys : Option String) (r : RedisState) (m : MemState)
      (s : SessionData),
      lookupL r.convRec cid = none →
      lookupL m.conversations cid = none →
      lookupL m.sessions sid = some s →
      redisConversations r sid = (memConversations m sid).reverse →
      redisConversations (initialize_conversation_redis now cid t sid sys r).2 sid =
        (memConversations (initialize_conversation_in_memory now cid t sid sys m).2 sid).reverse ∧
      redisConversations (initialize_conversation_redis now cid t sid sys r).2 sid =
        cid :: redisConversations r sid) := by
  refine ⟨?_, ?_, ?_⟩
  · intro sid st hon
    simp [get_session_conversations, hon, redisConversations]
  · intro up sid st hoff
    simp [get_session_conversations, hoff, memConversations]
  · intro now cid t sid sys r m s hc hmc hs hrel
    have hr : redisConversations (initialize_conversation_redis now cid t sid sys r).2 sid =
        cid :: redisConversations r sid := by
      simp [redisConversations, initialize_conversation_redis_convList now cid t sid sys r hc,
        lpush, lookupL_setKey_self]
    refine ⟨?_, hr⟩
    rw [hr]
    have hm : memConversations (initialize_conversation_in_memory now cid t sid sys m).2 sid =
        s.conversations ++ [cid] := by
      simp [memConversations,
        initialize_conversation_in_memory_links now cid t sid sys m s hmc hs]
    rw [hm, hrel]
    simp [memConversations, hs]

/-- Concrete one-session states used by the C10 witness. -/
def sessC10 : SessionData := ⟨"s", "t0", "T1", 0, 0, []⟩

def rC10 : RedisState := ⟨[("s", sessC10)], [], [], ⟨1, 0, 0⟩⟩

def mC10 : MemState := ⟨[("s", sessC10)], [], ⟨1, 0, 0⟩⟩

/-- Witness for C10 at concrete inputs. -/
theorem C10_amended_witness :
    (get_session_conversations true "s" stC10r).1 = redisConversations stC10r.redis "s" ∧
    (get_session_conversations false "s" stC10m).1 = memConversations stC10m.mem "s" ∧
    (redisConversations (initialize_conversation_redis "T2" "c" "t1" "s" none rC10).2 "s" =
        (memConversations
          (initialize_conversation_in_memory "T2" "c" "t1" "s" none mC10).2 "s").reverse ∧
      redisConversations (initialize_conversation_redis "T2" "c" "t1" "s" none rC10).2 "s" =
        "c" :: redisConversations rC10 "s") :=
  ⟨C10_amended_reverse_order.1 "s" stC10r (by decide),
   C10_amended_reverse_order.2.1 false "s" stC10m (by decide),
   C10_amended_reverse_order.2.2 "T2" "c" "t1" "s" none rC10 mC10 sessC10
     (by decide) (by decide) (by decide) (by decide)⟩

theorem initialize_session_down (now sid t : String) (st : SMState) :
    (initialize_session false now sid t st).1 =
      (initialize_session_in_memory now sid t st.mem).1 ∧
    (initialize_session false now sid t st).2.mem =
      (initialize_session_in_memory now sid t st.mem).2 ∧
    (initialize_session false now sid t st).2.redis = st.redis := by
  by_cases h : (st.hasPool && st.redis_available) = true <;>
    simp [initialize_session, h]

theorem initialize_conversation_down (now cid t sid : String) (sys : Option String)
    (st : SMState) :
    (initialize_conversation false now cid t sid sys st).1 =
      (initialize_conversation_in_memory now cid t sid sys st.mem).1 ∧
    (initialize_conversation false now cid t sid sys st).2.mem =
      (initialize_conversation_in_memory now cid t sid sys st.mem).2 ∧
    (initialize_conversation false now cid t sid sys st).2.redis = st.redis := by
  by_cases h : (st.hasPool && st.redis_available) = true <;>
    simp [initialize_conversation, h]

theorem add_message_down (now cid msg resp sid : String) (st : SMState) :
    (add_message_to_conversation false now cid msg resp sid st).mem =
      add_message_to_conversation_in_memory now cid msg resp sid st.mem ∧
    (add_message_to_conversation false now cid msg resp sid st).redis = st.redis := by
  by_cases h : (st.hasPool && st.redis_available) = true <;>
    simp [add_message_to_conversation, h]

theorem get_session_down (sid : String) (st : SMState) :
    (get_session false sid st).1 = lookupL st.mem.sessions sid := by
  by_cases h : (st.hasPool && st.redis_available) = true <;> simp [get_session, h]

theorem get_conversation_down (cid : String) (st : SMState) :
    (get_conversation false cid st).1 = lookupL st.mem.conversations cid := by
  by_cases h : (st.hasPool && st.redis_available) = true <;> simp [get_conversation, h]

theorem initialMessages_length_le (sys : Option String) (now : String) :
    (initialMessages sys now).length ≤ 1 := by
  cases sys with
  | none => simp [initialMessages]
  | some p =>
    by_cases h : p = "" <;> simp [initialMessages, h]

theorem pySliceLast_of_le (xs : List Message) (k : Int) (h0 : 0 < k)
    (h : (xs.length : Int) ≤ k) : pySliceLast xs k = xs := by
  have hz : xs.length - k.toNat = 0 := by omega
  simp [pySliceLast, h0, hz]

theorem initialize_session_in_memory_fresh (now sid t : String) (m : MemState)
    (h : lookupL m.sessions sid = none) :
    (initialize_session_in_memory now sid t m).1 = ⟨sid, t, now, 0, 0, []⟩ ∧
    lookupL (initialize_session_in_memory now sid t m).2.sessions sid =
      some ⟨sid, t, now, 0, 0, []⟩ ∧
    (initialize_session_in_memory now sid t m).2.conversations = m.conversations ∧
    (initialize_session_in_memory now sid t m).2.stats.total_sessions =
      m.stats.total_sessions + 1 := by
  simp [initialize_session_in_memory, h, lookupL_setKey_self]

theorem initialize_conversation_in_memory_fresh (now cid t sid : String)
    (sys : Option String) (m : MemState)
    (h : lookupL m.conversations cid = none) :
    (initialize_conversation_in_memory now cid t sid sys m).1 =
      ⟨cid, sid, t, now, initialMessages sys now, (initialMessages sys now).length⟩ ∧
    lookupL (initialize_conversation_in_memory now cid t sid sys m).2.conversations cid =
      some ⟨cid, sid, t, now, initialMessages sys now, (initialMessages sys now).length⟩ := by
  cases hs : lookupL m.sessions sid <;>
    simp [initialize_conversation_in_memory, h, hs, lookupL_setKey_self]

theorem add_message_in_memory_present (now cid msg resp sid : String) (m : MemState)
    (d : ConversationData) (s : SessionData)
    (hc : lookupL m.conversations cid = some d)
    (hs : lookupL m.sessions sid = some s) :
    lookupL (add_message_to_conversation_in_memory now cid msg resp sid m).conversations cid =
      some { d with messages := d.messages ++ messagePair now msg resp,
                    message_count := d.message_count + 2 } ∧
    lookupL (add_message_to_conversation_in_memory now cid msg resp sid m).sessions sid =
      some { s with message_count := s.message_count + 2 } ∧
    (add_message_to_conversation_in_memory now cid msg resp sid m).stats.total_messages =
      m.stats.total_messages + 2 := by
  simp [add_message_to_conversation_in_memory, hc, hs, lookupL_setKey_self]

/-- The C1 scenario: `initialize_session → initialize_conversation →
add_message_to_conversation` with every remote round trip failing
(`up = false` throughout, the remote having become unreachable). -/
def failoverSeq (now1 now2 now3 t1 t2 sid cid umsg amsg : String)
    (sys : Option String) (st : SMState) : SMState :=
  add_message_to_conversation false now3 cid umsg amsg sid
    (initialize_conversation false now2 cid t2 sid sys
      (initialize_session false now1 sid t1 st).2).2

/-- C1: with the remote unreachable for every call, the sequence
`initialize_session → initialize_conversation → add_message_to_conversation`
completes against the local fallback store (each operation is total:
the source wraps every remote access in a catch-all `except` that
reverts to the in-memory path, so no exception reaches the caller), the
remote store is never written, and subsequent `get_session`,
`get_conversation` and `get_conversation_messages` reads return exactly
the fallback-created records. -/
theorem C1_failover_reads_back (now1 now2 now3 t1 t2 sid cid umsg amsg : String)
    (sys : Option String) (st : SMState)
    (hfs : lookupL st.mem.sessions sid = none)
    (hfc : lookupL st.mem.conversations cid = none) :
    (get_session false sid (failoverSeq now1 now2 now3 t1 t2 sid cid umsg amsg sys st)).1 =
      some ⟨sid, t1, now1, 1, 2, [cid]⟩ ∧
    (get_conversation false cid (failoverSeq now1 now2 now3 t1 t2 sid cid umsg amsg sys st)).1 =
      some ⟨cid, sid, t2, now2,
        initialMessages sys now2 ++ messagePair now3 umsg amsg,
        (initialMessages sys now2).length + 2⟩ ∧
    (get_conversation_messages false cid 10
        (failoverSeq now1 now2 now3 t1 t2 sid cid umsg amsg sys st)).1 =
      initialMessages sys now2 ++ messagePair now3 umsg amsg ∧
    (failoverSeq now1 now2 now3 t1 t2 sid cid umsg amsg sys st).redis = st.redis := by
  obtain ⟨-, hm1, hr1⟩ := initialize_session_down now1 sid t1 st
  obtain ⟨-, hm2, hr2⟩ :=
    initialize_conversation_down now2 cid t2 sid sys (initialize_session false now1 sid t1 st).2
  obtain ⟨hm3, hr3⟩ := add_message_down now3 cid umsg amsg sid
    (initialize_conversation false now2 cid t2 sid sys
      (initialize_session false now1 sid t1 st).2).2
  obtain ⟨-, hF1s, hF1c, -⟩ := initialize_session_in_memory_fresh now1 sid t1 st.mem hfs
  have hfc1 : lookupL (initialize_session_in_memory now1 sid t1 st.mem).2.conversations cid
      = none := by rw [hF1c]; exact hfc
  obtain ⟨-, hF2c⟩ := initialize_conversation_in_memory_fresh now2 cid t2 sid sys
    (initialize_session_in_memory now1 sid t1 st.mem).2 hfc1
  have hF2s := initialize_conversation_in_memory_links now2 cid t2 sid sys
    (initialize_session_in_memory now1 sid t1 st.mem).2 ⟨sid, t1, now1, 0, 0, []⟩ hfc1 hF1s
  obtain ⟨hF3c, hF3s, -⟩ := add_message_in_memory_present now3 cid umsg amsg sid
    (initialize_conversation_in_memory now2 cid t2 sid sys
      (initialize_session_in_memory now1 sid t1 st.mem).2).2
    ⟨cid, sid, t2, now2, initialMessages sys now2, (initialMessages sys now2).length⟩
    ⟨sid, t1, now1, 1, 0, [cid]⟩ hF2c (by simpa using hF2s)
  have hmem : (failoverSeq now1 now2 now3 t1 t2 sid cid umsg amsg sys st).mem =
      add_message_to_conversation_in_memory now3 cid umsg amsg sid
        (initialize_conversation_in_memory now2 cid t2 sid sys
          (initialize_session_in_memory now1 sid t1 st.mem).2).2 := by
    rw [failoverSeq, hm3, hm2, hm1]
  have hsess : (get_session false sid
      (failoverSeq now1 now2 now3 t1 t2 sid cid umsg amsg sys st)).1 =
      some ⟨sid, t1, now1, 1, 2, [cid]⟩ := by
    rw [get_session_down, hmem, hF3s]
  have hconv : (get_conversation false cid
      (failoverSeq now1 now2 now3 t1 t2 sid cid umsg amsg sys st)).1 =
      some ⟨cid, sid, t2, now2,
        initialMessages sys now2 ++ messagePair now3 umsg amsg,
        (initialMessages sys now2).length + 2⟩ := by
    rw [get_conversation_down, hmem, hF3c]
  refine ⟨hsess, hconv, ?_, ?_⟩
  · have hlen : (((initialMessages sys now2 ++ messagePair now3 umsg amsg).length : Int)) ≤ 10 := by
      have := initialMessages_length_le sys now2
      simp [messagePair]
      omega
    simp only [get_conversation_messages, hconv]
    exact pySliceLast_of_le _ 10 (by norm_num) hlen
  · rw [failoverSeq, hr3, hr2, hr1]

/-- Witness for C1 at concrete inputs. -/
theorem C1_failover_reads_back_witness :
    (get_session false "s"
      (failoverSeq "T1" "T2" "T3" "t0" "t1" "s" "c" "hi" "yo" (some "sys")
        (startState true true))).1 = some ⟨"s", "t0", "T1", 1, 2, ["c"]⟩ ∧
    (get_conversation false "c"
      (failoverSeq "T1" "T2" "T3" "t0" "t1" "s" "c" "hi" "yo" (some "sys")
        (startState true true))).1 =
      some ⟨"c", "s", "t1", "T2",
        initialMessages (some "sys") "T2" ++ messagePair "T3" "hi" "yo",
        (initialMessages (some "sys") "T2").length + 2⟩ ∧
    (get_conversation_messages false "c" 10
      (failoverSeq "T1" "T2" "T3" "t0" "t1" "s" "c" "hi" "yo" (some "sys")
        (startState true true))).1 =
      initialMessages (some "sys") "T2" ++ messagePair "T3" "hi" "yo" ∧
    (failoverSeq "T1" "T2" "T3" "t0" "t1" "s" "c" "hi" "yo" (some "sys")
      (startState true true)).redis = (startState true true).redis :=
  C1_failover_reads_back "T1" "T2" "T3" "t0" "t1" "s" "c" "hi" "yo" (some "sys")
    (startState true true) (by decide) (by decide)

theorem initialize_conversation_in_memory_total_messages (now cid t sid : String)
    (sys : Option String) (m : MemState) :
    (initialize_conversation_in_memory now cid t sid sys m).2.stats.total_messages =
      m.stats.total_messages := by
  cases hc : lookupL m.conversations cid with
  | some d => simp [initialize_conversation_in_memory, hc]
  | none =>
    cases hs : lookupL m.sessions sid <;>
      simp [initialize_conversation_in_memory, hc, hs]

theorem add_message_in_memory_mutates (now cid msg resp sid : String) (m : MemState) :
    (add_message_to_conversation_in_memory now cid msg resp sid m).stats.total_messages =
      m.stats.total_messages + 2 ∧
    (lookupL (add_message_to_conversation_in_memory now cid msg resp sid m).conversations
        cid).isSome = true := by
  unfold add_message_to_conversation_in_memory
  cases hc : lookupL m.conversations cid with
  | some d =>
    cases hs : lookupL m.sessions sid <;>
      simp [hc, hs, lookupL_setKey_self]
  | none =>
    obtain ⟨-, hsome⟩ :=
      initialize_conversation_in_memory_fresh now cid now sid none m hc
    have htm := initialize_conversation_in_memory_total_messages now cid now sid none m
    cases hs : lookupL (initialize_conversation_in_memory now cid now sid none m).2.sessions
        sid <;>
      simp [hc, hsome, hs, lookupL_setKey_self, htm]

/-- C8 counterexample: the claim says one backend path treats a missing
conversation as a pure no-op (no entity created, no counters changed).
In fact BOTH paths mutate state: on the remote-active path the missing
conversation is auto-created in the in-memory shadow store and the
in-memory `total_messages` counter grows by 2, and the fallback path
does the same, so no backend state leaves all stored entities and
counters unchanged. -/
theorem C8_counterexample :
    (add_message_to_conversation true "T1" "c" "hi" "yo" "s"
        (startState true true)).mem.stats.total_messages = 2 ∧
    (lookupL (add_message_to_conversation true "T1" "c" "hi" "yo" "s"
        (startState true true)).mem.conversations "c").isSome = true ∧
    (add_message_to_conversation false "T1" "c" "hi" "yo" "s"
        (startState true false)).mem.stats.total_messages = 2 ∧
    (lookupL (add_message_to_conversation false "T1" "c" "hi" "yo" "s"
        (startState true false)).mem.conversations "c").isSome = true ∧
    add_message_to_conversation true "T1" "c" "hi" "yo" "s" (startState true true) ≠
      startState true true ∧
    add_message_to_conversation false "T1" "c" "hi" "yo" "s" (startState true false) ≠
      startState true false := by
  decide

/-- C8 amended: `add_message_to_conversation` on a missing conversation
is never a no-op.  On the remote-active path with the conversation
absent from Redis, the call logs a warning and delegates to the
in-memory fallback: the Redis store and the availability flag are left
untouched (the only change is the `mem` component), but the
conversation is auto-created in the in-memory store and its
`total_messages` counter grows by 2.  On the fallback path the call
equally runs the in-memory code, which auto-creates the conversation
when absent and always appends the pair. -/
theorem C8_amended_no_noop :
    (∀ (now cid msg resp sid : String) (st : SMState),
      (st.hasPool && st.redis_available) = true →
      lookupL st.redis.convRec cid = none →
      add_message_to_conversation true now cid msg resp sid st =
        { st with mem := add_message_to_conversation_in_memory now cid msg resp sid st.mem } ∧
      (add_message_to_conversation true now cid msg resp sid st).mem.stats.total_messages =
        st.mem.stats.total_messages + 2 ∧
      (lookupL (add_message_to_conversation true now cid msg resp sid
          st).mem.conversations cid).isSome = true) ∧
    (∀ (up : Bool) (now cid msg resp sid : String) (st : SMState),
      (st.hasPool && st.redis_available) = false →
      add_message_to_conversation up now cid msg resp sid st =
        { st with mem := add_message_to_conversation_in_memory now cid msg resp sid st.mem } ∧
      (add_message_to_conversation up now cid msg resp sid st).mem.stats.total_messages =
        st.mem.stats.total_messages + 2 ∧
      (lookupL (add_message_to_conversation up now cid msg resp sid
          st).mem.conversations cid).isSome = true) := by
  constructor
  · intro now cid msg resp sid st hon hc
    have hdisp : add_message_to_conversation true now cid msg resp sid st =
        { st with mem := add_message_to_conversation_in_memory now cid msg resp sid st.mem } := by
      simp [add_message_to_conversation, hon, add_message_to_conversation_redis, hc]
    obtain ⟨h1, h2⟩ := add_message_in_memory_mutates now cid msg resp sid st.mem
    rw [hdisp]
    exact ⟨rfl, h1, h2⟩
  · intro up now cid msg resp sid st hoff
    have hdisp : add_message_to_conversation up now cid msg resp sid st =
        { st with mem := add_message_to_conversation_in_memory now cid msg resp sid st.mem } := by
      cases up <;> simp [add_message_to_conversation, hoff]
    obtain ⟨h1, h2⟩ := add_message_in_memory_mutates now cid msg resp sid st.mem
    rw [hdisp]
    exact ⟨rfl, h1, h2⟩

/-- Witness for C8 at concrete inputs, on both backend paths. -/
theorem C8_amended_no_noop_witness :
    (add_message_to_conversation true "T9" "c9" "hi" "yo" "s9" (startState true true) =
        { startState true true with
            mem := add_message_to_conversation_in_memory "T9" "c9" "hi" "yo" "s9"
              (startState true true).mem } ∧
      (add_message_to_conversation true "T9" "c9" "hi" "yo" "s9"
          (startState true true)).mem.stats.total_messages =
        (startState true true).mem.stats.total_messages + 2 ∧
      (lookupL (add_message_to_conversation true "T9" "c9" "hi" "yo" "s9"
          (startState true true)).mem.conversations "c9").isSome = true) ∧
    (add_message_to_conversation false "T9" "c9" "hi" "yo" "s9" (startState true false) =
        { startState true false with
            mem := add_message_to_conversation_in_memory "T9" "c9" "hi" "yo" "s9"
              (startState true false).mem } ∧
      (add_message_to_conversation false "T9" "c9" "hi" "yo" "s9"
          (startState true false)).mem.stats.total_messages =
        (startState true false).mem.stats.total_messages + 2 ∧
      (lookupL (add_message_to_conversation false "T9" "c9" "hi" "yo" "s9"
          (startState true false)).mem.conversations "c9").isSome = true) :=
  ⟨C8_amended_no_noop.1 "T9" "c9" "hi" "yo" "s9" (startState true true)
      (by decide) (by decide),
   C8_amended_no_noop.2 false "T9" "c9" "hi" "yo" "s9" (startState true false)
      (by decide)⟩

theorem lookupL_of_mem_nodup {α : Type} {l : List (String × α)}
    (hnd : (l.map Prod.fst).Nodup) {p : String × α} (hp : p ∈ l) :
    lookupL l p.1 = some p.2 := by
  induction l with
  | nil => cases hp
  | cons a rest ih =>
    rw [List.map_cons, List.nodup_cons] at hnd
    rcases List.mem_cons.1 hp with rfl | hpr
    · simp [lookupL]
    · have hne : a.1 ≠ p.1 := by
        intro he
        exact hnd.1 (he ▸ List.mem_map_of_mem Prod.fst hpr)
      simp [lookupL, hne, ih hnd.2 hpr]

theorem eq_of_mem_of_nodup_keys {α : Type} {l : List (String × α)}
    (hnd : (l.map Prod.fst).Nodup) {p q : String × α}
    (hp : p ∈ l) (hq : q ∈ l) (h1 : p.1 = q.1) : p = q := by
  have hlp := lookupL_of_mem_nodup hnd hp
  have hlq := lookupL_of_mem_nodup hnd hq
  rw [h1, hlq] at hlp
  have h2 : p.2 = q.2 := by
    injection hlp.symm
  calc p = (p.1, p.2) := rfl
    _ = (q.1, q.2) := by rw [h1, h2]
    _ = q := rfl

theorem contains_map_fst_filter {α : Type} (l : List (String × α))
    (f : String × α → Bool) (hnd : (l.map Prod.fst).Nodup)
    (p : String × α) (hp : p ∈ l) :
    ((l.filter f).map Prod.fst).contains p.1 = f p := by
  by_cases hf : f p = true
  · have hmem : p.1 ∈ (l.filter f).map Prod.fst :=
      List.mem_map_of_mem Prod.fst (List.mem_filter.2 ⟨hp, hf⟩)
    simp [hf, hmem]
  · have hmem : p.1 ∉ (l.filter f).map Prod.fst := by
      intro hmem
      obtain ⟨q, hq, hq1⟩ := List.mem_map.1 hmem
      obtain ⟨hql, hqf⟩ := List.mem_filter.1 hq
      rw [eq_of_mem_of_nodup_keys hnd hql hp hq1] at hqf
      exact hf hqf
    have hfp : f p = false := Bool.eq_false_iff.2 hf
    simp [hmem, hfp]

theorem eraseKey_of_not_mem {α : Type} (l : List (String × α)) (k : String)
    (h : k ∉ l.map Prod.fst) : eraseKey l k = l := by
  apply List.filter_eq_self.2
  intro p hp
  simp only [ne_eq, decide_not]
  have : p.1 ≠ k := by
    intro he
    exact h (he ▸ List.mem_map_of_mem Prod.fst hp)
  simp [this]

theorem nodup_keys_eraseKey {α : Type} (l : List (String × α)) (k : String)
    (hnd : (l.map Prod.fst).Nodup) : ((eraseKey l k).map Prod.fst).Nodup :=
  ((List.filter_sublist l).map Prod.fst).nodup hnd

theorem length_eraseKey_present {α : Type} (l : List (String × α)) (k : String)
    (hnd : (l.map Prod.fst).Nodup) (hk : (lookupL l k).isSome = true) :
    (eraseKey l k).length = l.length - 1 := by
  induction l with
  | nil => simp [lookupL] at hk
  | cons a rest ih =>
    rw [List.map_cons, List.nodup_cons] at hnd
    by_cases ha : a.1 = k
    · have hrest : k ∉ rest.map Prod.fst := ha ▸ hnd.1
      have hskip : decide (a.1 ≠ k) = false := by simp [ha]
      have hid : List.filter (fun p => decide (p.1 ≠ k)) rest = rest :=
        eraseKey_of_not_mem rest k hrest
      simp only [ne_eq, decide_not] at hid
      simp [eraseKey, List.filter_cons, hskip, ha, hid]
    · have hk' : (lookupL rest k).isSome = true := by
        simpa [lookupL, ha] using hk
      have hlen : 1 ≤ rest.length := by
        cases rest with
        | nil => simp [lookupL] at hk'
        | cons b tail => simp
      have hkeep : decide (a.1 ≠ k) = true := by simp [ha]
      have hrec : (List.filter (fun p => decide (p.1 ≠ k)) rest).length =
          rest.length - 1 := ih hnd.2 hk'
      simp only [eraseKey, List.filter_cons, hkeep, if_true, List.length_cons] at *
      rw [hrec]
      omega

theorem lookupL_eraseKey_isSome {α : Type} (l : List (String × α)) (k k' : String)
    (h : k' ≠ k) (hk : (lookupL l k').isSome = true) :
    (lookupL (eraseKey l k) k').isSome = true := by
  rw [lookupL_eraseKey_ne l k k' h]
  exact hk

theorem length_foldl_eraseKey {α : Type} (S : List String) (l : List (String × α))
    (hS : S.Nodup) (hpres : ∀ c ∈ S, (lookupL l c).isSome = true)
    (hnd : (l.map Prod.fst).Nodup) :
    (S.foldl eraseKey l).length = l.length - S.length := by
  induction S generalizing l with
  | nil => simp
  | cons c S ih =>
    rw [List.nodup_cons] at hS
    rw [List.foldl_cons]
    have hc : (lookupL l c).isSome = true := hpres c (List.mem_cons_self c S)
    have hpres' : ∀ c' ∈ S, (lookupL (eraseKey l c) c').isSome = true := by
      intro c' hc'
      have hne : c' ≠ c := fun he => hS.1 (he ▸ hc')
      exact lookupL_eraseKey_isSome l c c' hne (hpres c' (List.mem_cons_of_mem c hc'))
    rw [ih (eraseKey l c) hS.2 hpres' (nodup_keys_eraseKey l c hnd),
      length_eraseKey_present l c hnd hc]
    simp only [List.length_cons]
    omega

/-- The exact condition under which one iteration of the Redis cleanup
SCAN loop deletes a session: the key is not a conversation-list key,
`created_at` is below the cutoff, and `session_id` is truthy. -/
def qualB (cutoff_timestamp : String) (p : String × SessionData) : Bool :=
  !isConversationListKey p.1 &&
    (pyStrLt p.2.created_at cutoff_timestamp && !(p.2.session_id == ""))

theorem cleanupRedisStep_of_qual (cutoff : String) (acc : Int × RedisState)
    (p : String × SessionData) (hq : qualB cutoff p = true) :
    cleanupRedisStep cutoff acc p =
      (acc.1 + 1,
       ⟨eraseKey acc.2.sessionRec p.1,
        p.2.conversations.foldl eraseKey acc.2.convRec,
        eraseKey acc.2.convList p.2.session_id,
        acc.2.statsHash⟩) := by
  unfold qualB at hq
  rw [Bool.and_eq_true] at hq
  obtain ⟨h1, h2⟩ := hq
  have h1' : isConversationListKey p.1 = false := by
    simpa using h1
  simp [cleanupRedisStep, h1', h2]

theorem cleanupRedisStep_of_not_qual (cutoff : String) (acc : Int × RedisState)
    (p : String × SessionData) (hq : qualB cutoff p = false) :
    cleanupRedisStep cutoff acc p = acc := by
  unfold qualB at hq
  by_cases h1 : isConversationListKey p.1 = true
  · simp [cleanupRedisStep, h1]
  · have h1' : isConversationListKey p.1 = false := by
      simpa using h1
    rw [h1'] at hq
    simp only [Bool.not_false, Bool.true_and] at hq
    simp [cleanupRedisStep, h1', hq]

theorem cleanup_redis_foldl (cutoff : String) (L : List (String × SessionData))
    (n : Int) (s : RedisState) :
    L.foldl (cleanupRedisStep cutoff) (n, s) =
      (n + ((L.filter (qualB cutoff)).length : Int),
       ⟨((L.filter (qualB cutoff)).map Prod.fst).foldl eraseKey s.sessionRec,
        ((L.filter (qualB cutoff)).flatMap (fun p => p.2.conversations)).foldl
          eraseKey s.convRec,
        ((L.filter (qualB cutoff)).map (fun p => p.2.session_id)).foldl
          eraseKey s.convList,
        s.statsHash⟩) := by
  induction L generalizing n s with
  | nil => simp
  | cons p L ih =>
    rw [List.foldl_cons]
    by_cases hq : qualB cutoff p = true
    · rw [cleanupRedisStep_of_qual cutoff (n, s) p hq, ih]
      simp only [List.filter_cons, hq, if_true, List.map_cons, List.flatMap_cons,
        List.length_cons, List.foldl_cons, List.foldl_append]
      congr 1
      push_cast
      ring
    · have hq' : qualB cutoff p = false := Bool.eq_false_iff.2 hq
      rw [cleanupRedisStep_of_not_qual cutoff (n, s) p hq', ih]
      simp [List.filter_cons, hq']

/-- The in-memory sessions the cleanup pass collects as too old. -/
def memOldSessions (cutoff_timestamp : String) (m : MemState) :
    List (String × SessionData) :=
  m.sessions.filter (fun p => pyStrLt p.2.created_at cutoff_timestamp)

/-- Their linked conversation ids, in collection order. -/
def memOldConvIds (cutoff_timestamp : String) (m : MemState) : List String :=
  (memOldSessions cutoff_timestamp m).flatMap (fun p => p.2.conversations)

/-- The Redis sessions whose records are older than the cutoff. -/
def redisOldSessions (cutoff_timestamp : String) (r : RedisState) :
    List (String × SessionData) :=
  r.sessionRec.filter (fun p => pyStrLt p.2.created_at cutoff_timestamp)

/-- Their linked conversation ids. -/
def redisOldConvIds (cutoff_timestamp : String) (r : RedisState) : List String :=
  (redisOldSessions cutoff_timestamp r).flatMap (fun p => p.2.conversations)

/-- Remote-active state with session A created 30 hours before the
cleanup call and session B created 1 hour before it; the cutoff for
`cleanup_old_sessions(24)` at 2026-10-12T10:00:00 is
2026-10-11T10:00:00.  Used for C6. -/
def stC6 : SMState :=
  ⟨true, true, ⟨[], [], ⟨0, 0, 0⟩⟩,
   ⟨[("A", ⟨"A", "t0", "2026-10-11T04:00:00", 1, 0, ["cA"]⟩),
     ("B", ⟨"B", "t1", "2026-10-12T09:00:00", 0, 0, []⟩)],
    [("cA", ⟨"cA", "A", "t0", "2026-10-11T04:05:00", [], 0⟩)],
    [("A", ["cA"])],
    ⟨2, 1, 0⟩⟩⟩

/-- C6 counterexample: on the active remote backend the cleanup removes
exactly old session A and its linked conversation and returns 1, but
the stats hash is left completely unchanged (`total_sessions` stays 2,
`total_conversations` stays 1): the Redis branch of
`cleanup_old_sessions` never decrements any counter, contradicting the
claim's "decrements the counters by exactly the number of entities
actually removed, on whichever backend is active". -/
theorem C6_counterexample :
    (cleanup_old_sessions true "2026-10-11T10:00:00" stC6).1 = 1 ∧
    lookupL (cleanup_old_sessions true "2026-10-11T10:00:00"
      stC6).2.redis.sessionRec "A" = none ∧
    (lookupL (cleanup_old_sessions true "2026-10-11T10:00:00"
      stC6).2.redis.sessionRec "B").isSome = true ∧
    lookupL (cleanup_old_sessions true "2026-10-11T10:00:00"
      stC6).2.redis.convRec "cA" = none ∧
    (cleanup_old_sessions true "2026-10-11T10:00:00" stC6).2.redis.statsHash =
      stC6.redis.statsHash ∧
    stC6.redis.statsHash.total_sessions = 2 ∧
    stC6.redis.statsHash.total_conversations = 1 := by
  decide

/-- C6 amended: `cleanup_old_sessions` deletes exactly the sessions
whose `created_at` is lexicographically below the cutoff together with
all their linked conversations and returns the number of sessions
deleted, on whichever backend is active (for the remote path this needs
the well-formedness every reachable store has: distinct keys, each
record's `session_id` equal to its key, nonempty and not colliding with
the `:conversations` key suffix).  The in-memory path decrements
`total_sessions` and `total_conversations` by exactly the numbers of
sessions and of linked conversations removed and leaves
`total_messages` alone; the REMOTE path, however, leaves the stats hash
completely unchanged — no counter is ever decremented there. -/
theorem C6_amended_cleanup :
    (∀ (up : Bool) (cutoff : String) (st : SMState),
      (st.hasPool && st.redis_available) = false →
      cleanup_old_sessions up cutoff st =
        ((cleanup_old_sessions_in_memory cutoff st.mem).1,
         { st with mem := (cleanup_old_sessions_in_memory cutoff st.mem).2 })) ∧
    (∀ (cutoff : String) (st : SMState),
      (st.hasPool && st.redis_available) = true →
      cleanup_old_sessions true cutoff st =
        ((cleanup_old_sessions_redis cutoff st.redis).1,
         { st with redis := (cleanup_old_sessions_redis cutoff st.redis).2 })) ∧
    (∀ (cutoff : String) (m : MemState),
      (m.sessions.map Prod.fst).Nodup →
      (m.conversations.map Prod.fst).Nodup →
      (memOldConvIds cutoff m).Nodup →
      (∀ c ∈ memOldConvIds cutoff m, (lookupL m.conversations c).isSome = true) →
      (cleanup_old_sessions_in_memory cutoff m).1 =
        ((memOldSessions cutoff m).length : Int) ∧
      (cleanup_old_sessions_in_memory cutoff m).2.sessions =
        m.sessions.filter (fun p => !(pyStrLt p.2.created_at cutoff)) ∧
      (cleanup_old_sessions_in_memory cutoff m).2.conversations =
        m.conversations.filter (fun p => !((memOldConvIds cutoff m).contains p.1)) ∧
      (cleanup_old_sessions_in_memory cutoff m).2.stats.total_sessions =
        m.stats.total_sessions - (memOldSessions cutoff m).length ∧
      (cleanup_old_sessions_in_memory cutoff m).2.stats.total_conversations =
        m.stats.total_conversations - (memOldConvIds cutoff m).length ∧
      (cleanup_old_sessions_in_memory cutoff m).2.stats.total_messages =
        m.stats.total_messages ∧
      (cleanup_old_sessions_in_memory cutoff m).2.sessions.length =
        m.sessions.length - (memOldSessions cutoff m).length ∧
      (cleanup_old_sessions_in_memory cutoff m).2.conversations.length =
        m.conversations.length - (memOldConvIds cutoff m).length) ∧
    (∀ (cutoff : String) (r : RedisState),
      (r.sessionRec.map Prod.fst).Nodup →
      (∀ p ∈ r.sessionRec, p.2.session_id = p.1 ∧ p.1 ≠ "" ∧
        isConversationListKey p.1 = false) →
      (cleanup_old_sessions_redis cutoff r).1 =
        ((redisOldSessions cutoff r).length : Int) ∧
      (cleanup_old_sessions_redis cutoff r).2.statsHash = r.statsHash ∧
      (cleanup_old_sessions_redis cutoff r).2.sessionRec =
        r.sessionRec.filter (fun p => !(pyStrLt p.2.created_at cutoff)) ∧
      (cleanup_old_sessions_redis cutoff r).2.convRec =
        r.convRec.filter (fun p => !((redisOldConvIds cutoff r).contains p.1)) ∧
      (cleanup_old_sessions_redis cutoff r).2.convList =
        r.convList.filter
          (fun p => !(((redisOldSessions cutoff r).map Prod.fst).contains p.1))) := by
  refine ⟨?_, ?_, ?_, ?_⟩
  · intro up cutoff st hoff
    cases up <;> simp [cleanup_old_sessions, hoff]
  · intro cutoff st hon
    simp [cleanup_old_sessions, hon]
  · intro cutoff m hndS hndC hndIds hpres
    have hcount : (cleanup_old_sessions_in_memory cutoff m).1 =
        ((memOldSessions cutoff m).length : Int) := by
      simp [cleanup_old_sessions_in_memory, memOldSessions]
    have hsess : (cleanup_old_sessions_in_memory cutoff m).2.sessions =
        m.sessions.filter (fun p => !(pyStrLt p.2.created_at cutoff)) := by
      show ((memOldSessions cutoff m).map Prod.fst).foldl eraseKey m.sessions = _
      rw [foldl_eraseKey_eq_filter]
      apply List.filter_congr
      intro p hp
      unfold memOldSessions
      rw [contains_map_fst_filter m.sessions _ hndS p hp]
    have hconv : (cleanup_old_sessions_in_memory cutoff m).2.conversations =
        m.conversations.filter (fun p => !((memOldConvIds cutoff m).contains p.1)) := by
      show (memOldConvIds cutoff m).foldl eraseKey m.conversations = _
      rw [foldl_eraseKey_eq_filter]
    have hndOldKeys : ((memOldSessions cutoff m).map Prod.fst).Nodup :=
      (((List.filter_sublist m.sessions).map Prod.fst).nodup hndS)
    have hpresOld : ∀ k ∈ (memOldSessions cutoff m).map Prod.fst,
        (lookupL m.sessions k).isSome = true := by
      intro k hk
      obtain ⟨p, hp, rfl⟩ := List.mem_map.1 hk
      rw [lookupL_of_mem_nodup hndS (List.mem_of_mem_filter hp)]
      rfl
    have hlenS : (cleanup_old_sessions_in_memory cutoff m).2.sessions.length =
        m.sessions.length - (memOldSessions cutoff m).length := by
      show (((memOldSessions cutoff m).map Prod.fst).foldl eraseKey m.sessions).length = _
      rw [length_foldl_eraseKey _ _ hndOldKeys hpresOld hndS, List.length_map]
    have hlenC : (cleanup_old_sessions_in_memory cutoff m).2.conversations.length =
        m.conversations.length - (memOldConvIds cutoff m).length := by
      show ((memOldConvIds cutoff m).foldl eraseKey m.conversations).length = _
      rw [length_foldl_eraseKey _ _ hndIds hpres hndC]
    refine ⟨hcount, hsess, hconv, ?_, ?_, rfl, hlenS, hlenC⟩
    · show m.stats.total_sessions - ((memOldSessions cutoff m).map Prod.fst).length = _
      rw [List.length_map]
    · show m.stats.total_conversations - (memOldConvIds cutoff m).length = _
      rfl
  · intro cutoff r hnd hwf
    have hfilter : r.sessionRec.filter (qualB cutoff) = redisOldSessions cutoff r := by
      apply List.filter_congr
      intro p hp
      obtain ⟨hsid, hne, hkey⟩ := hwf p hp
      have hbeq : (p.2.session_id == "") = false := by
        rw [hsid]
        simpa using hne
      simp [qualB, hkey, hbeq]
    have hmapsid : (redisOldSessions cutoff r).map (fun p => p.2.session_id) =
        (redisOldSessions cutoff r).map Prod.fst := by
      apply List.map_congr_left
      intro p hp
      exact (hwf p (List.mem_of_mem_filter hp)).1
    have hfold := cleanup_redis_foldl cutoff r.sessionRec 0 r
    have heq : cleanup_old_sessions_redis cutoff r =
        (((redisOldSessions cutoff r).length : Int),
         ⟨((redisOldSessions cutoff r).map Prod.fst).foldl eraseKey r.sessionRec,
          (redisOldConvIds cutoff r).foldl eraseKey r.convRec,
          ((redisOldSessions cutoff r).map Prod.fst).foldl eraseKey r.convList,
          r.statsHash⟩) := by
      rw [cleanup_old_sessions_redis, hfold, hfilter, hmapsid]
      simp [redisOldConvIds]
    refine ⟨?_, ?_, ?_, ?_, ?_⟩
    · rw [heq]
    · rw [heq]
    · rw [heq]
      show ((redisOldSessions cutoff r).map Prod.fst).foldl eraseKey r.sessionRec = _
      rw [foldl_eraseKey_eq_filter]
      apply List.filter_congr
      intro p hp
      unfold redisOldSessions
      rw [contains_map_fst_filter r.sessionRec _ hnd p hp]
    · rw [heq]
      show (redisOldConvIds cutoff r).foldl eraseKey r.convRec = _
      rw [foldl_eraseKey_eq_filter]
    · rw [heq]
      show ((redisOldSessions cutoff r).map Prod.fst).foldl eraseKey r.convList = _
      rw [foldl_eraseKey_eq_filter]

/-- In-memory counterpart of the C6 scenario (sessions A and B, linked
conversation cA). -/
def mC6 : MemState :=
  ⟨[("A", ⟨"A", "t0", "2026-10-11T04:00:00", 1, 0, ["cA"]⟩),
    ("B", ⟨"B", "t1", "2026-10-12T09:00:00", 0, 0, []⟩)],
   [("cA", ⟨"cA", "A", "t0", "2026-10-11T04:05:00", [], 0⟩)],
   ⟨2, 1, 0⟩⟩

/-- Witness for C6 at concrete inputs, exercising all four parts. -/
theorem C6_amended_witness :
    cleanup_old_sessions false "T" (startState true false) =
      ((cleanup_old_sessions_in_memory "T" (startState true false).mem).1,
       { startState true false with
           mem := (cleanup_old_sessions_in_memory "T" (startState true false).mem).2 }) ∧
    cleanup_old_sessions true "2026-10-11T10:00:00" stC6 =
      ((cleanup_old_sessions_redis "2026-10-11T10:00:00" stC6.redis).1,
       { stC6 with
           redis := (cleanup_old_sessions_redis "2026-10-11T10:00:00" stC6.redis).2 }) ∧
    (cleanup_old_sessions_in_memory "2026-10-11T10:00:00" mC6).1 =
      ((memOldSessions "2026-10-11T10:00:00" mC6).length : Int) ∧
    (cleanup_old_sessions_in_memory "2026-10-11T10:00:00" mC6).2.stats.total_sessions =
      mC6.stats.total_sessions - (memOldSessions "2026-10-11T10:00:00" mC6).length ∧
    (cleanup_old_sessions_in_memory "2026-10-11T10:00:00" mC6).2.stats.total_conversations =
      mC6.stats.total_conversations - (memOldConvIds "2026-10-11T10:00:00" mC6).length ∧
    (cleanup_old_sessions_redis "2026-10-11T10:00:00" stC6.redis).1 =
      ((redisOldSessions "2026-10-11T10:00:00" stC6.redis).length : Int) ∧
    (cleanup_old_sessions_redis "2026-10-11T10:00:00" stC6.redis).2.statsHash =
      stC6.redis.statsHash :=
  ⟨C6_amended_cleanup.1 false "T" (startState true false) (by decide),
   C6_amended_cleanup.2.1 "2026-10-11T10:00:00" stC6 (by decide),
   (C6_amended_cleanup.2.2.1 "2026-10-11T10:00:00" mC6
     (by decide) (by decide) (by decide) (by decide)).1,
   (C6_amended_cleanup.2.2.1 "2026-10-11T10:00:00" mC6
     (by decide) (by decide) (by decide) (by decide)).2.2.2.1,
   (C6_amended_cleanup.2.2.1 "2026-10-11T10:00:00" mC6
     (by decide) (by decide) (by decide) (by decide)).2.2.2.2.1,
   (C6_amended_cleanup.2.2.2 "2026-10-11T10:00:00" stC6.redis
     (by decide) (by decide)).1,
   (C6_amended_cleanup.2.2.2 "2026-10-11T10:00:00" stC6.redis
     (by decide) (by decide)).2.1⟩

theorem mem_setKey_cases {α : Type} (l : List (String × α)) (k : String) (v : α)
    (p : String × α) (hp : p ∈ setKey l k v) : p = (k, v) ∨ p ∈ l := by
  induction l with
  | nil =>
    simp [setKey] at hp
    left
    exact hp
  | cons a rest ih =>
    by_cases ha : a.1 = k
    · simp only [setKey, ha, if_true] at hp
      rcases List.mem_cons.1 hp with h | h
      · left; exact h
      · right; exact List.mem_cons_of_mem a h
    · simp only [setKey, ha, if_false] at hp
      rcases List.mem_cons.1 hp with h | h
      · right; rw [h]; exact List.mem_cons_self a rest
      · rcases ih h with h' | h'
        · left; exact h'
        · right; exact List.mem_cons_of_mem a h'

/-- The invariant of C3 on one conversation record. -/
def ConvWF (d : ConversationData) : Prop :=
  d.message_count = d.messages.length

/-- All conversation records of the in-memory store satisfy C3. -/
def memWF (m : MemState) : Prop :=
  ∀ p ∈ m.conversations, ConvWF p.2

/-- All conversation records of the Redis store satisfy C3. -/
def redisWF (r : RedisState) : Prop :=
  ∀ p ∈ r.convRec, ConvWF p.2

theorem memWF_initialize_session (now sid t : String) (m : MemState)
    (h : memWF m) : memWF (initialize_session_in_memory now sid t m).2 := by
  cases hl : lookupL m.sessions sid <;>
    simpa [initialize_session_in_memory, hl, memWF] using h

theorem memWF_initialize_conversation (now cid t sid : String) (sys : Option String)
    (m : MemState) (h : memWF m) :
    memWF (initialize_conversation_in_memory now cid t sid sys m).2 := by
  cases hl : lookupL m.conversations cid with
  | some d => simpa [initialize_conversation_in_memory, hl, memWF] using h
  | none =>
    intro p hp
    have hp' : p ∈ setKey m.conversations cid
        ⟨cid, sid, t, now, initialMessages sys now, (initialMessages sys now).length⟩ := by
      cases hs : lookupL m.sessions sid <;>
        simpa [initialize_conversation_in_memory, hl, hs] using hp
    rcases mem_setKey_cases _ _ _ p hp' with he | hm
    · rw [he]; rfl
    · exact h p hm

theorem memWF_add_message (now cid msg resp sid : String) (m : MemState)
    (h : memWF m) :
    memWF (add_message_to_conversation_in_memory now cid msg resp sid m) := by
  unfold add_message_to_conversation_in_memory
  cases hl : lookupL m.conversations cid with
  | some d =>
    intro p hp
    have hp' : p ∈ (setKey m.conversations cid
        { d with messages := d.messages ++ messagePair now msg resp,
                 message_count := d.message_count + 2 }) := by
      cases hs : lookupL m.sessions sid <;> simpa [hl, hs] using hp
    rcases mem_setKey_cases _ _ _ p hp' with he | hm
    · rw [he]
      have hd : ConvWF d := h (cid, d) (mem_of_lookupL _ _ _ hl)
      show d.message_count + 2 = (d.messages ++ messagePair now msg resp).length
      unfold ConvWF at hd
      simp [messagePair, hd]
    · exact h p hm
  | none =>
    have hcreated := memWF_initialize_conversation now cid now sid none m h
    obtain ⟨-, hsome⟩ := initialize_conversation_in_memory_fresh now cid now sid none m hl
    intro p hp
    have hp' : p ∈ (setKey
        (initialize_conversation_in_memory now cid now sid none m).2.conversations cid
        { conversation_id := cid, session_id := sid, start_time := now,
          created_at := now,
          messages := initialMessages none now ++ messagePair now msg resp,
          message_count := (initialMessages none now).length + 2 }) := by
      cases hs : lookupL (initialize_conversation_in_memory now cid now sid
          none m).2.sessions sid <;>
        simpa [hl, hsome, hs] using hp
    rcases mem_setKey_cases _ _ _ p hp' with he | hm
    · rw [he]
      show (initialMessages none now).length + 2 =
        (initialMessages none now ++ messagePair now msg resp).length
      simp [messagePair]
    · exact hcreated p hm

theorem redisWF_initialize_session (now sid t : String) (r : RedisState)
    (h : redisWF r) : redisWF (initialize_session_redis now sid t r).2 := by
  cases hl : lookupL r.sessionRec sid <;>
    simpa [initialize_session_redis, hl, redisWF] using h

theorem redisWF_initialize_conversation (now cid t sid : String) (sys : Option String)
    (r : RedisState) (h : redisWF r) :
    redisWF (initialize_conversation_redis now cid t sid sys r).2 := by
  cases hl : lookupL r.convRec cid with
  | some d => simpa [initialize_conversation_redis, hl, redisWF] using h
  | none =>
    intro p hp
    have hp' : p ∈ setKey r.convRec cid
        ⟨cid, sid, t, now, initialMessages sys now, (initialMessages sys now).length⟩ := by
      cases hs : lookupL r.sessionRec sid <;>
        simpa [initialize_conversation_redis, hl, hs] using hp
    rcases mem_setKey_cases _ _ _ p hp' with he | hm
    · rw [he]; rfl
    · exact h p hm

theorem redisWF_add_message (now cid msg resp sid : String) (r r' : RedisState)
    (h : redisWF r)
    (hr : add_message_to_conversation_redis now cid msg resp sid r = some r') :
    redisWF r' := by
  unfold add_message_to_conversation_redis at hr
  cases hl : lookupL r.convRec cid with
  | none => rw [hl] at hr; cases hr
  | some d =>
    rw [hl] at hr
    injection hr with hr
    subst hr
    intro p hp
    have hp' : p ∈ (setKey r.convRec cid
        { d with messages := d.messages ++ messagePair now msg resp,
                 message_count := d.message_count + 2 }) := by
      cases hs : lookupL r.sessionRec sid <;> simpa [hs] using hp
    rcases mem_setKey_cases _ _ _ p hp' with he | hm
    · rw [he]
      have hd : ConvWF d := h (cid, d) (mem_of_lookupL _ _ _ hl)
      show d.message_count + 2 = (d.messages ++ messagePair now msg resp).length
      unfold ConvWF at hd
      simp [messagePair, hd]
    · exact h p hm

theorem mem_foldl_eraseKey {α : Type} (S : List String) (l : List (String × α))
    (p : String × α) (hp : p ∈ S.foldl eraseKey l) : p ∈ l := by
  rw [foldl_eraseKey_eq_filter] at hp
  exact List.mem_of_mem_filter hp

theorem memWF_cleanup (cutoff : String) (m : MemState) (h : memWF m) :
    memWF (cleanup_old_sessions_in_memory cutoff m).2 := by
  intro p hp
  exact h p (mem_foldl_eraseKey _ _ p hp)

theorem redisWF_cleanup (cutoff : String) (r : RedisState) (h : redisWF r) :
    redisWF (cleanup_old_sessions_redis cutoff r).2 := by
  intro p hp
  rw [cleanup_old_sessions_redis, cleanup_redis_foldl] at hp
  exact h p (mem_foldl_eraseKey _ _ p hp)

theorem step_not_active (c : Call) (st : SMState)
    (hoff : (st.hasPool && st.redis_available) = false) :
    step c st = { st with mem := memStep c st.mem } := by
  obtain ⟨up, now, op⟩ := c
  cases op <;>
    simp [step, memStep, initialize_session, initialize_conversation,
      add_message_to_conversation, get_session, get_conversation,
      get_conversation_messages, get_session_conversations,
      get_session_stats, cleanup_old_sessions, hoff]

theorem step_active_remote_down (up : Bool) (now : String) (op : Op) (st : SMState)
    (hact : (st.hasPool && st.redis_available) = true) (hup : up = false) :
    step ⟨up, now, op⟩ st =
      { st with redis_available := false, mem := memStep ⟨up, now, op⟩ st.mem } := by
  subst hup
  cases op <;>
    simp [step, memStep, initialize_session, initialize_conversation,
      add_message_to_conversation, get_session, get_conversation,
      get_conversation_messages, get_session_conversations,
      get_session_stats, cleanup_old_sessions, hact]

theorem step_preserves_WF (c : Call) (st : SMState)
    (hm : memWF st.mem) (hr : redisWF st.redis) :
    memWF (step c st).mem ∧ redisWF (step c st).redis := by
  obtain ⟨up, now, op⟩ := c
  have memPart : ∀ (m : MemState), memWF m → memWF (memStep ⟨up, now, op⟩ m) := by
    intro m hmm
    cases op with
    | initSession sid t => exact memWF_initialize_session now sid t m hmm
    | initConv cid t sid sys =>
      exact memWF_initialize_conversation now cid t sid sys m hmm
    | addMsg cid msg resp sid => exact memWF_add_message now cid msg resp sid m hmm
    | cleanup cutoff => exact memWF_cleanup cutoff m hmm
    | getSess sid => exact hmm
    | getConv cid => exact hmm
    | getConvMsgs cid limit => exact hmm
    | getSessConvs sid => exact hmm
    | getStats => exact hmm
  by_cases hact : (st.hasPool && st.redis_available) = true
  · cases hup : up with
    | false =>
      rw [hup] at *
      rw [step_active_remote_down false now op st hact rfl]
      exact ⟨memPart st.mem hm, hr⟩
    | true =>
      rw [hup] at *
      cases op with
      | initSession sid t =>
        have : step ⟨true, now, .initSession sid t⟩ st =
            { st with redis := (initialize_session_redis now sid t st.redis).2 } := by
          simp [step, initialize_session, hact]
        rw [this]
        exact ⟨hm, redisWF_initialize_session now sid t st.redis hr⟩
      | initConv cid t sid sys =>
        have : step ⟨true, now, .initConv cid t sid sys⟩ st =
            { st with redis :=
                (initialize_conversation_redis now cid t sid sys st.redis).2 } := by
          simp [step, initialize_conversation, hact]
        rw [this]
        exact ⟨hm, redisWF_initialize_conversation now cid t sid sys st.redis hr⟩
      | addMsg cid msg resp sid =>
        cases hres : add_message_to_conversation_redis now cid msg resp sid st.redis with
        | some r' =>
          have : step ⟨true, now, .addMsg cid msg resp sid⟩ st =
              { st with redis := r' } := by
            simp [step, add_message_to_conversation, hact, hres]
          rw [this]
          exact ⟨hm, redisWF_add_message now cid msg resp sid st.redis r' hr hres⟩
        | none =>
          have : step ⟨true, now, .addMsg cid msg resp sid⟩ st =
              { st with
                  mem := add_message_to_conversation_in_memory now cid msg resp sid st.mem } := by
            simp [step, add_message_to_conversation, hact, hres]
          rw [this]
          exact ⟨memWF_add_message now cid msg resp sid st.mem hm, hr⟩
      | cleanup cutoff =>
        have : step ⟨true, now, .cleanup cutoff⟩ st =
            { st with redis := (cleanup_old_sessions_redis cutoff st.redis).2 } := by
          simp [step, cleanup_old_sessions, hact]
        rw [this]
        exact ⟨hm, redisWF_cleanup cutoff st.redis hr⟩
      | getSess sid =>
        have : step ⟨true, now, .getSess sid⟩ st = st := by
          simp [step, get_session, hact]
        rw [this]; exact ⟨hm, hr⟩
      | getConv cid =>
        have : step ⟨true, now, .getConv cid⟩ st = st := by
          simp [step, get_conversation, hact]
        rw [this]; exact ⟨hm, hr⟩
      | getConvMsgs cid limit =>
        have : step ⟨true, now, .getConvMsgs cid limit⟩ st = st := by
          simp [step, get_conversation_messages, get_conversation, hact]
        rw [this]; exact ⟨hm, hr⟩
      | getSessConvs sid =>
        have : step ⟨true, now, .getSessConvs sid⟩ st = st := by
          simp [step, get_session_conversations, hact]
        rw [this]; exact ⟨hm, hr⟩
      | getStats =>
        have : step ⟨true, now, .getStats⟩ st = st := by
          simp [step, get_session_stats, hact]
        rw [this]; exact ⟨hm, hr⟩
  · have hoff : (st.hasPool && st.redis_available) = false := Bool.eq_false_iff.2 hact
    rw [step_not_active ⟨up, now, op⟩ st hoff]
    exact ⟨memPart st.mem hm, hr⟩

theorem run_preserves_WF (cs : List Call) (st : SMState)
    (hm : memWF st.mem) (hr : redisWF st.redis) :
    memWF (run cs st).mem ∧ redisWF (run cs st).redis := by
  induction cs generalizing st with
  | nil => exact ⟨hm, hr⟩
  | cons c cs ih =>
    obtain ⟨hm', hr'⟩ := step_preserves_WF c st hm hr
    exact ih (step c st) hm' hr'

theorem add_message_in_memory_conv (now cid msg resp sid : String) (m : MemState)
    (d : ConversationData) (hc : lookupL m.conversations cid = some d) :
    lookupL (add_message_to_conversation_in_memory now cid msg resp sid
        m).conversations cid =
      some { d with messages := d.messages ++ messagePair now msg resp,
                    message_count := d.message_count + 2 } := by
  unfold add_message_to_conversation_in_memory
  cases hs : lookupL m.sessions sid <;> simp [hc, hs, lookupL_setKey_self]

theorem add_message_redis_some (now cid msg resp sid : String) (r : RedisState)
    (d : ConversationData) (hc : lookupL r.convRec cid = some d) :
    ∃ r', add_message_to_conversation_redis now cid msg resp sid r = some r' ∧
      lookupL r'.convRec cid =
        some { d with messages := d.messages ++ messagePair now msg resp,
                      message_count := d.message_count + 2 } := by
  unfold add_message_to_conversation_redis
  rw [hc]
  refine ⟨_, rfl, ?_⟩
  cases hs : lookupL r.sessionRec sid <;> simp [hs, lookupL_setKey_self]

theorem add_message_active_conv (now cid msg resp sid : String) (st : SMState)
    (d : ConversationData)
    (hon : (st.hasPool && st.redis_available) = true)
    (hc : lookupL st.redis.convRec cid = some d) :
    ((add_message_to_conversation true now cid msg resp sid st).hasPool &&
      (add_message_to_conversation true now cid msg resp sid st).redis_available) = true ∧
    lookupL (add_message_to_conversation true now cid msg resp sid
        st).redis.convRec cid =
      some { d with messages := d.messages ++ messagePair now msg resp,
                    message_count := d.message_count + 2 } := by
  obtain ⟨r', hr', hl'⟩ := add_message_redis_some now cid msg resp sid st.redis d hc
  have hdisp : add_message_to_conversation true now cid msg resp sid st =
      { st with redis := r' } := by
    simp [add_message_to_conversation, hon, hr']
  rw [hdisp]
  exact ⟨hon, hl'⟩

theorem foldl_add_messages_mem (cid : String)
    (calls : List (String × String × String × String)) (m : MemState)
    (d : ConversationData) (hc : lookupL m.conversations cid = some d) :
    ∃ d', lookupL (calls.foldl (fun mm q =>
        add_message_to_conversation_in_memory q.1 cid q.2.1 q.2.2.1 q.2.2.2 mm)
        m).conversations cid = some d' ∧
      d'.message_count = d.message_count + 2 * calls.length ∧
      d'.messages.length = d.messages.length + 2 * calls.length := by
  induction calls generalizing m d with
  | nil => exact ⟨d, hc, by simp, by simp⟩
  | cons q rest ih =>
    rw [List.foldl_cons]
    have h1 := add_message_in_memory_conv q.1 cid q.2.1 q.2.2.1 q.2.2.2 m d hc
    obtain ⟨d', hd', h2, h3⟩ := ih _ _ h1
    refine ⟨d', hd', ?_, ?_⟩
    · simp only [List.length_cons] at h2 ⊢
      omega
    · simp only [List.length_cons, List.length_append, messagePair,
        List.length_cons, List.length_nil] at h3 ⊢
      omega

theorem foldl_add_messages_redis (cid : String)
    (calls : List (String × String × String × String)) (st : SMState)
    (d : ConversationData)
    (hon : (st.hasPool && st.redis_available) = true)
    (hc : lookupL st.redis.convRec cid = some d) :
    ∃ d', lookupL ((calls.foldl (fun ss q =>
        add_message_to_conversation true q.1 cid q.2.1 q.2.2.1 q.2.2.2 ss)
        st)).redis.convRec cid = some d' ∧
      d'.message_count = d.message_count + 2 * calls.length ∧
      d'.messages.length = d.messages.length + 2 * calls.length := by
  induction calls generalizing st d with
  | nil => exact ⟨d, hc, by simp, by simp⟩
  | cons q rest ih =>
    rw [List.foldl_cons]
    obtain ⟨hon', h1⟩ :=
      add_message_active_conv q.1 cid q.2.1 q.2.2.1 q.2.2.2 st d hon hc
    obtain ⟨d', hd', h2, h3⟩ := ih _ _ hon' h1
    refine ⟨d', hd', ?_, ?_⟩
    · simp only [List.length_cons] at h2 ⊢
      omega
    · simp only [List.length_cons, List.length_append, messagePair,
        List.length_nil] at h3 ⊢
      omega

/-- C3: in every state reachable by any sequence of entity calls from a
freshly constructed manager, every stored conversation (in either
backend store) satisfies `message_count = messages.length`; and after N
`add_message_to_conversation` calls on a conversation holding
`initialSeed` messages (`message_count = initialSeed`, as
`initialize_conversation` creates it), its `message_count` is
`initialSeed + 2 * N` and its message-list length equals it, on the
in-memory backend and on the remote backend alike. -/
theorem C3_message_count_invariant :
    (∀ (pool flag : Bool) (cs : List Call),
      memWF (run cs (startState pool flag)).mem ∧
      redisWF (run cs (startState pool flag)).redis) ∧
    (∀ (cid : String) (calls : List (String × String × String × String))
        (m : MemState) (d : ConversationData),
      lookupL m.conversations cid = some d →
      ∃ d', lookupL (calls.foldl (fun mm q =>
          add_message_to_conversation_in_memory q.1 cid q.2.1 q.2.2.1 q.2.2.2 mm)
          m).conversations cid = some d' ∧
        d'.message_count = d.message_count + 2 * calls.length ∧
        d'.messages.length = d.messages.length + 2 * calls.length) ∧
    (∀ (cid : String) (calls : List (String × String × String × String))
        (st : SMState) (d : ConversationData),
      (st.hasPool && st.redis_available) = true →
      lookupL st.redis.convRec cid = some d →
      ∃ d', lookupL ((calls.foldl (fun ss q =>
          add_message_to_conversation true q.1 cid q.2.1 q.2.2.1 q.2.2.2 ss)
          st)).redis.convRec cid = some d' ∧
        d'.message_count = d.message_count + 2 * calls.length ∧
        d'.messages.length = d.messages.length + 2 * calls.length) := by
  refine ⟨?_, foldl_add_messages_mem, foldl_add_messages_redis⟩
  intro pool flag cs
  apply run_preserves_WF
  · intro p hp
    cases hp
  · intro p hp
    cases hp

/-- A stored conversation with no seed messages, used by the C3 witness. -/
def mC3 : MemState :=
  ⟨[], [("c", ⟨"c", "s", "t1", "T1", [], 0⟩)], ⟨0, 1, 0⟩⟩

/-- Remote-active counterpart for the C3 witness. -/
def stC3 : SMState :=
  ⟨true, true, ⟨[], [], ⟨0, 0, 0⟩⟩,
   ⟨[], [("c", ⟨"c", "s", "t1", "T1", [], 0⟩)], [], ⟨0, 1, 0⟩⟩⟩

/-- Witness for C3 at concrete inputs: one message pair appended to a
conversation seeded with zero messages, on both backends. -/
theorem C3_message_count_invariant_witness :
    (memWF (run [] (startState true true)).mem ∧
      redisWF (run [] (startState true true)).redis) ∧
    (∃ d', lookupL (([("T2", "a", "b", "s")] :
        List (String × String × String × String)).foldl
        (fun mm q => add_message_to_conversation_in_memory q.1 "c" q.2.1 q.2.2.1
          q.2.2.2 mm) mC3).conversations "c" = some d' ∧
      d'.message_count = (⟨"c", "s", "t1", "T1", [], 0⟩ :
        ConversationData).message_count + 2 * ([("T2", "a", "b", "s")] :
        List (String × String × String × String)).length ∧
      d'.messages.length = (⟨"c", "s", "t1", "T1", [], 0⟩ :
        ConversationData).messages.length + 2 * ([("T2", "a", "b", "s")] :
        List (String × String × String × String)).length) ∧
    (∃ d', lookupL ((([("T2", "a", "b", "s")] :
        List (String × String × String × String)).foldl
        (fun ss q => add_message_to_conversation true q.1 "c" q.2.1 q.2.2.1
          q.2.2.2 ss) stC3)).redis.convRec "c" = some d' ∧
      d'.message_count = (⟨"c", "s", "t1", "T1", [], 0⟩ :
        ConversationData).message_count + 2 * ([("T2", "a", "b", "s")] :
        List (String × String × String × String)).length ∧
      d'.messages.length = (⟨"c", "s", "t1", "T1", [], 0⟩ :
        ConversationData).messages.length + 2 * ([("T2", "a", "b", "s")] :
        List (String × String × String × String)).length) :=
  ⟨C3_message_count_invariant.1 true true [],
   C3_message_count_invariant.2.1 "c" [("T2", "a", "b", "s")] mC3
     ⟨"c", "s", "t1", "T1", [], 0⟩ (by decide),
   C3_message_count_invariant.2.2 "c" [("T2", "a", "b", "s")] stC3
     ⟨"c", "s", "t1", "T1", [], 0⟩ (by decide) (by decide)⟩
